import Mathlib

/-!
# fps-skool: the game loop, spawner and scoring state machine of `src/main.js`

A shallow embedding of the gameplay part of `src/main.js` and theorems about it.

Modelling conventions

* The module-level variables of the script (`mode`, `difficulty`, `targets`, `score`,
  `timer`, `lives`, `running`, `lastSpawn`, `spawnInterval`), the text of `messageEl`, the
  `keys` record and `camera.position` are the fields of `State`.  Every function of the
  script that mutates them is a function `State → State`.
* JavaScript numbers are rationals (`ℚ`); `score` only counts up from `0` and is a
  `Nat`, `lives` and `difficulty` are integers.  The countdown `timer -= dt` of line 209 is
  the one place where the rounding of IEEE doubles accumulates from frame to frame and
  decides a branch, so there the difference is rounded to the nearest double
  (`roundDouble`, ties to even, for results below `2 ^ 1024` in magnitude); elsewhere
  arithmetic is exact.
  `1700 / difficulty` is `Infinity` when `difficulty` is `0`; `spawnInterval` is therefore an
  `Option ℚ` whose `none` is `Infinity`.
* `Math.sqrt`, `Math.sin`, `Math.cos` and `Math.PI` are the fields of a `Host` record that every
  geometric function takes as an argument.  The general theorems hold for every `Host`.
* Everything the script reads from its environment is an explicit input: the values of
  `Math.random()` used by one `spawnTarget` call (`SpawnDraw`), `clock.getDelta()`,
  `performance.now()`, the camera matrix entries and the result of
  `raycaster.intersectObjects`.
* A mesh is a JavaScript object compared by reference (`targets.indexOf(t)`).  Each `Target`
  carries an `id`, allotted from the counter `State.nextId` when the mesh is created, and
  reference equality is equality of `id`s.
* A callback registered with `setTimeout` is an entry of `State.pending`; all callbacks have
  the same delay, so they fire in the order in which they were registered (`timeoutFires`).
* The functions of three.js that the script calls (`Vector3`, `MathUtils`) are written out
  from the library (release 0.154).  The scene graph, materials, colours, the mesh scale,
  the DOM mirrors of score, timer and lives, pointer lock and rendering carry no gameplay
  state and are left out.
-/

namespace FpsSkool

/-! ## Host numerics and three.js vectors -/

/-- The numeric primitives of the JavaScript host: `Math.sqrt`, `Math.sin`, `Math.cos`, `Math.PI`. -/
structure Host where
  sqrt : ℚ → ℚ
  sin : ℚ → ℚ
  cos : ℚ → ℚ
  pi : ℚ

/-- A `THREE.Vector3`. -/
structure Vector3 where
  x : ℚ
  y : ℚ
  z : ℚ
deriving DecidableEq

namespace Vector3

/-- `new THREE.Vector3().subVectors(a, b)`. -/
def subVectors (a b : Vector3) : Vector3 :=
  ⟨a.x - b.x, a.y - b.y, a.z - b.z⟩

/-- `v.lengthSq()`. -/
def lengthSq (v : Vector3) : ℚ :=
  v.x * v.x + v.y * v.y + v.z * v.z

/-- `v.length()`. -/
def length (h : Host) (v : Vector3) : ℚ :=
  h.sqrt (v.x * v.x + v.y * v.y + v.z * v.z)

/-- `v.multiplyScalar(k)`. -/
def multiplyScalar (v : Vector3) (k : ℚ) : Vector3 :=
  ⟨v.x * k, v.y * k, v.z * k⟩

/-- `v.divideScalar(k)`, which three.js computes as `multiplyScalar(1 / k)`. -/
def divideScalar (v : Vector3) (k : ℚ) : Vector3 :=
  v.multiplyScalar (1 / k)

/-- `v.normalize()`: `divideScalar(this.length() || 1)`. -/
def normalize (h : Host) (v : Vector3) : Vector3 :=
  v.divideScalar (if v.length h = 0 then 1 else v.length h)

/-- `a.add(b)`. -/
def add (a b : Vector3) : Vector3 :=
  ⟨a.x + b.x, a.y + b.y, a.z + b.z⟩

/-- `p.addScaledVector(v, k)`. -/
def addScaledVector (p v : Vector3) (k : ℚ) : Vector3 :=
  ⟨p.x + v.x * k, p.y + v.y * k, p.z + v.z * k⟩

/-- `a.distanceToSquared(b)`. -/
def distanceToSquared (a b : Vector3) : ℚ :=
  (a.x - b.x) * (a.x - b.x) + (a.y - b.y) * (a.y - b.y) + (a.z - b.z) * (a.z - b.z)

/-- `a.distanceTo(b)`. -/
def distanceTo (h : Host) (a b : Vector3) : ℚ :=
  h.sqrt (a.distanceToSquared b)

end Vector3

/-! ## IEEE doubles -/

/-- The integer nearest to `x`, the even one of the two when `x` lies half way. -/
def roundHalfEven (x : ℚ) : ℤ :=
  if x - ⌊x⌋ < 1 / 2 then ⌊x⌋
  else if 1 / 2 < x - ⌊x⌋ then ⌊x⌋ + 1
  else if ⌊x⌋ % 2 = 0 then ⌊x⌋
  else ⌊x⌋ + 1

/-- The binary exponent of the doubles around `q`: the `e` with `2 ^ e ≤ |q| < 2 ^ (e + 1)`,
and `-1022` in the subnormal range. -/
def doubleExponent (q : ℚ) : ℤ :=
  max (Int.log 2 |q|) (-1022)

/-- The double nearest to `q` (53 significant bits, ties to even), which is the result of a
JavaScript operation whose exact result is `q`, as long as it does not overflow. -/
def roundDouble (q : ℚ) : ℚ :=
  (roundHalfEven (q / 2 ^ (doubleExponent q - 52)) : ℚ) * 2 ^ (doubleExponent q - 52)

/-! ## three.js helpers -/

/-- `THREE.MathUtils.lerp(x, y, t)`. -/
def lerp (x y t : ℚ) : ℚ :=
  (1 - t) * x + t * y

/-- `THREE.MathUtils.degToRad(d)`, with `DEG2RAD = Math.PI / 180`. -/
def degToRad (h : Host) (d : ℚ) : ℚ :=
  d * (h.pi / 180)

/-- `THREE.MathUtils.randFloatSpread(range)` at the value `r` of `Math.random()`. -/
def randFloatSpread (range r : ℚ) : ℚ :=
  range * (1 / 2 - r)

/-- `THREE.MathUtils.randFloat(low, high)` at the value `r` of `Math.random()`. -/
def randFloat (low high r : ℚ) : ℚ :=
  low + r * (high - low)

/-! ## Data model -/

/-- The `userData.type` of a target: the script only ever passes these two strings. -/
inductive TargetType where
  | static
  | moving
deriving DecidableEq

/-- A target mesh: its identity, `position` and `userData`. -/
structure Target where
  id : Nat
  position : Vector3
  type : TargetType
  size : ℚ
  hit : Bool
  speed : ℚ
deriving DecidableEq

/-- The `keys` record. -/
structure Keys where
  w : Bool
  a : Bool
  s : Bool
  d : Bool
deriving DecidableEq

/-- The mutable state of the script. -/
structure State where
  mode : String
  difficulty : Int
  targets : List Target
  score : Nat
  timer : ℚ
  lives : Int
  running : Bool
  lastSpawn : ℚ
  spawnInterval : Option ℚ
  message : String
  keys : Keys
  camera : Vector3
  pending : List Target
  nextId : Nat
deriving DecidableEq

/-- The state after the module has been loaded (lines 67-81, camera at line 10), in a
browser that supports pointer lock, with an empty message element. -/
def init : State where
  mode := "practice"
  difficulty := 1
  targets := []
  score := 0
  timer := 60
  lives := 3
  running := false
  lastSpawn := 0
  spawnInterval := some 1500
  message := ""
  keys := ⟨false, false, false, false⟩
  camera := ⟨0, 8 / 5, 5⟩
  pending := []
  nextId := 0

/-- The quotient `1700 / difficulty` of lines 235 and 248; `none` is `Infinity`. -/
def intervalFor (difficulty : Int) : Option ℚ :=
  if difficulty = 0 then none else some (1700 / (difficulty : ℚ))

/-- The comparison `now - lastSpawn > spawnInterval` of line 198. -/
def spawnDue (now : ℚ) (s : State) : Bool :=
  match s.spawnInterval with
  | some iv => decide (now - s.lastSpawn > iv)
  | none => false

/-- The values of `Math.random()` consumed by one iteration of the spawn loop, in the order
in which the script draws them (the draw for the colour is left out). -/
structure SpawnDraw where
  typeRoll : ℚ
  sizeRoll : ℚ
  angleRoll : ℚ
  distanceRoll : ℚ
  jitterX : ℚ
  jitterZ : ℚ
  heightRoll : ℚ
  speedRoll : ℚ

/-- What one call of `animate` reads from its environment: `clock.getDelta()`, the
`performance.now()` of line 197, the random draws of the spawn loop, the
`performance.now()` of line 183 at each index, and the entries 0, 2, 8, 10 of
`camera.matrix.elements`. -/
structure FrameInput where
  dt : ℚ
  now : ℚ
  draws : Nat → SpawnDraw
  idleNow : Nat → ℚ
  e0 : ℚ
  e2 : ℚ
  e8 : ℚ
  e10 : ℚ

/-! ## The functions of the script -/

/-- The template literal of line 282. -/
def endMessage (msg : String) (score : Nat) : String :=
  msg ++ " â€” Score: " ++ toString score

/-- Function `endGame` (lines 280-285). -/
def endGame (msg : String) (s : State) : State :=
  { s with running := false, message := endMessage msg s.score }

/-- Function `startGame` (lines 238-277), with the values of the mode selector, of the
parsed difficulty input and of `performance.now()`. -/
def startGame (sel : String) (dval : Int) (now : ℚ) (s : State) : State :=
  let s1 : State :=
    { s with score := 0, targets := [], mode := sel, difficulty := dval,
             spawnInterval := intervalFor dval }
  let s2 : State :=
    if s1.mode = "timed" then { s1 with timer := 60 }
    else if s1.mode = "survival" then { s1 with lives := 3 + s1.difficulty }
    else s1
  { s2 with message := "", running := true, lastSpawn := now }

/-- Function `spawnTarget` (lines 101-116). -/
def spawnTarget (h : Host) (type : TargetType) (r : SpawnDraw) (s : State) : State :=
  let size := lerp (1 / 4) (3 / 5) r.sizeRoll
  let angle := degToRad h (randFloatSpread 90 r.angleRoll)
  let distance := randFloat 6 22 r.distanceRoll
  let x := h.sin angle * distance + s.camera.x + (r.jitterX - 1 / 2) * 6
  let z := -(h.cos angle) * distance + s.camera.z + (r.jitterZ - 1 / 2) * 6
  let y := randFloat 1 3 r.heightRoll
  let mesh : Target :=
    { id := s.nextId, position := ⟨x, y, z⟩, type := type, size := size, hit := false,
      speed := randFloat (3 / 10) (6 / 5) r.speedRoll }
  { s with targets := s.targets ++ [mesh], nextId := s.nextId + 1 }

/-- Function `destroyTarget` (lines 119-123): `indexOf` by reference, then `splice`. -/
def destroyTarget (t : Target) (s : State) : State :=
  match s.targets.findIdx? (fun u => u.id == t.id) with
  | some idx => { s with targets := s.targets.eraseIdx idx }
  | none => s

/-- Function `shoot` (lines 126-142); `intersects` is the result of
`raycaster.intersectObjects(targets, false)`, nearest first.  The `setTimeout` of line 140
appends its callback to `pending`. -/
def shoot (intersects : List Target) (s : State) : State :=
  if !s.running then s
  else
    match intersects with
    | hit :: _ => { s with score := s.score + 1, pending := s.pending ++ [hit] }
    | [] => s

/-- The oldest callback registered by line 140 runs: `destroyTarget(hit)`. -/
def timeoutFires (s : State) : State :=
  match s.pending with
  | [] => s
  | hit :: rest => destroyTarget hit { s with pending := rest }

/-- The test of line 187 followed by its `destroyTarget`. -/
def despawnIfFar (h : Host) (t : Target) (s : State) : State :=
  if t.position.distanceTo h s.camera > 250 then destroyTarget t s else s

/-- The body of the loop of `updateTargets` at index `i` (lines 167-187).  The loop only
visits indices of the registry (`updateTargetsBody_length`), so the branch for a missing
`targets[i]` is never taken. -/
def updateTargetsBody (h : Host) (dt : ℚ) (idleNow : Nat → ℚ) (i : Nat) (s : State) : State :=
  match s.targets[i]? with
  | none => s
  | some t =>
    if t.type = TargetType.moving then
      let dir := Vector3.subVectors s.camera t.position
      let dist := dir.length h
      if dist < 7 / 5 then
        let s1 := destroyTarget t s
        let s2 : State := { s1 with lives := s1.lives - 1 }
        if s2.lives ≤ 0 then endGame "You were overwhelmed!" s2 else s2
      else
        let t1 : Target :=
          { t with position := t.position.addScaledVector (dir.normalize h) (t.speed * dt) }
        despawnIfFar h t1 { s with targets := s.targets.set i t1 }
    else
      let t1 : Target :=
        { t with position :=
            { t.position with
              y := t.position.y + h.sin (idleNow i * (1 / 1000) + (i : ℚ)) * (1 / 2000) } }
      despawnIfFar h t1 { s with targets := s.targets.set i t1 }

/-- The loop of `updateTargets`: `n` iterations remain, the next index is `n - 1`. -/
def updateTargetsLoop (h : Host) (dt : ℚ) (idleNow : Nat → ℚ) : Nat → State → State
  | 0, s => s
  | n + 1, s => updateTargetsLoop h dt idleNow n (updateTargetsBody h dt idleNow n s)

/-- Function `updateTargets` (lines 165-189). -/
def updateTargets (h : Host) (dt : ℚ) (idleNow : Nat → ℚ) (s : State) : State :=
  updateTargetsLoop h dt idleNow s.targets.length s

/-- The vector `move` of lines 148-152. -/
def moveVector (k : Keys) : Vector3 :=
  ⟨(if k.d then 1 else 0) - (if k.a then 1 else 0), 0,
   (if k.s then 1 else 0) - (if k.w then 1 else 0)⟩

/-- Function `updateMovement` (lines 146-162). -/
def updateMovement (h : Host) (inp : FrameInput) (s : State) : State :=
  let move := moveVector s.keys
  if move.lengthSq > 0 then
    let move1 := move.normalize h
    let forward := (Vector3.mk (-inp.e8) 0 (-inp.e10)).normalize h
    let right := (Vector3.mk inp.e0 0 inp.e2).normalize h
    let dir := (forward.multiplyScalar move1.z).add (right.multiplyScalar move1.x)
    { s with camera := s.camera.addScaledVector dir (9 / 2 * inp.dt) }
  else s

/-- The type chosen at line 203 from the mode and the value of `Math.random()`. -/
def rollType (mode : String) (roll : ℚ) : TargetType :=
  if mode = "survival" ∧ roll < 3 / 5 then TargetType.moving else TargetType.static

/-- The loop of lines 202-205: iterations `i, i + 1, ..., i + n - 1`. -/
def spawnLoop (h : Host) (draws : Nat → SpawnDraw) : Nat → Nat → State → State
  | _, 0, s => s
  | i, n + 1, s =>
    spawnLoop h draws (i + 1) n (spawnTarget h (rollType s.mode (draws i).typeRoll) (draws i) s)

/-- The spawn logic of `animate` (lines 197-206). -/
def spawnStep (h : Host) (inp : FrameInput) (s : State) : State :=
  if spawnDue inp.now s then
    spawnLoop h inp.draws 0 s.difficulty.toNat { s with lastSpawn := inp.now }
  else s

/-- The countdown of `animate` (lines 208-214); `timer -= dt` yields the double nearest to
the difference. -/
def timerStep (dt : ℚ) (s : State) : State :=
  if s.mode = "timed" then
    let s1 : State := { s with timer := roundDouble (s.timer - dt) }
    if s1.timer ≤ 0 then endGame "Time up!" s1 else s1
  else s

/-- Function `animate` (lines 192-221), one frame. -/
def animate (h : Host) (inp : FrameInput) (s : State) : State :=
  if s.running then
    updateMovement h inp (updateTargets h inp.dt inp.idleNow (timerStep inp.dt (spawnStep h inp s)))
  else s

/-- The `keydown` listener (lines 43-48). -/
def keydown (code : String) (s : State) : State :=
  let k := s.keys
  let k1 : Keys := if code = "KeyW" then { k with w := true } else k
  let k2 : Keys := if code = "KeyS" then { k1 with s := true } else k1
  let k3 : Keys := if code = "KeyA" then { k2 with a := true } else k2
  let k4 : Keys := if code = "KeyD" then { k3 with d := true } else k3
  { s with keys := k4 }

/-- The `keyup` listener (lines 49-54). -/
def keyup (code : String) (s : State) : State :=
  let k := s.keys
  let k1 : Keys := if code = "KeyW" then { k with w := false } else k
  let k2 : Keys := if code = "KeyS" then { k1 with s := false } else k1
  let k3 : Keys := if code = "KeyA" then { k2 with a := false } else k2
  let k4 : Keys := if code = "KeyD" then { k3 with d := false } else k3
  { s with keys := k4 }

/-- The `mousedown` listener (lines 225-227). -/
def mousedown (button : Int) (intersects : List Target) (s : State) : State :=
  if button = 0 then shoot intersects s else s

/-- The `change` listener of the mode selector (line 231). -/
def modeChange (value : String) (s : State) : State :=
  { s with mode := value }

/-- The `input` listener of the difficulty control (lines 232-236). -/
def difficultyInput (dval : Int) (s : State) : State :=
  { s with difficulty := dval, spawnInterval := intervalFor dval }

/-- Everything that can happen to the script between two moments of rest: the click on the
start button, a frame, a mouse button going down, the oldest delayed removal coming due, key
and control events, and a call of `endGame` from outside the frame loop (the stop action of
the specification). -/
inductive Action where
  | start (sel : String) (dval : Int) (now : ℚ)
  | frame (inp : FrameInput)
  | mousedown (button : Int) (intersects : List Target)
  | timeout
  | keydown (code : String)
  | keyup (code : String)
  | modeChange (value : String)
  | difficultyInput (dval : Int)
  | endGame (msg : String)

/-- One action applied to a state. -/
def step (h : Host) (s : State) : Action → State
  | Action.start sel dval now => startGame sel dval now s
  | Action.frame inp => animate h inp s
  | Action.mousedown button intersects => mousedown button intersects s
  | Action.timeout => timeoutFires s
  | Action.keydown code => keydown code s
  | Action.keyup code => keyup code s
  | Action.modeChange value => modeChange value s
  | Action.difficultyInput dval => difficultyInput dval s
  | Action.endGame msg => endGame msg s

/-- A sequence of actions applied in order. -/
def run (h : Host) (s : State) (as : List Action) : State :=
  as.foldl (step h) s

/-- Whether an action is the start action. -/
def Action.isStart : Action → Bool
  | Action.start _ _ _ => true
  | _ => false

/-- The text `part` occurs in the text `whole`. -/
def Contains (whole part : String) : Prop :=
  ∃ before after : String, whole = before ++ part ++ after

/-- A static target straight ahead of the initial camera position, ten units away. -/
def targetAhead : Target :=
  { id := 0, position := ⟨0, 8 / 5, -5⟩, type := TargetType.static, size := 2 / 5,
    hit := false, speed := 1 / 2 }

/-- A running practice round in which `targetAhead` is the only target. -/
def roundWithTargetAhead : State :=
  { init with running := true, targets := [targetAhead], nextId := 1 }

/-- A square root on the rationals that is exact on squares of rationals, as `Math.sqrt` is
on the squares it can represent. -/
def ratSqrt (q : ℚ) : ℚ :=
  (Nat.sqrt q.num.toNat : ℚ) / (Nat.sqrt q.den : ℚ)

/-- A concrete host for evaluating the script on explicit inputs: square roots by `ratSqrt`,
sine and cosine by their Taylor polynomials of degree five and four, and `355 / 113` for
`Math.PI`. -/
def sampleHost : Host where
  sqrt := ratSqrt
  sin := fun x => x - x ^ 3 / 6 + x ^ 5 / 120
  cos := fun x => 1 - x ^ 2 / 2 + x ^ 4 / 24
  pi := 355 / 113

/-- The state `s1` differs from `s` at most in the registry and in the identity counter. -/
def SameRound (s s1 : State) : Prop :=
  s1.mode = s.mode ∧ s1.difficulty = s.difficulty ∧ s1.score = s.score ∧ s1.timer = s.timer ∧
  s1.lives = s.lives ∧ s1.running = s.running ∧ s1.lastSpawn = s.lastSpawn ∧
  s1.spawnInterval = s.spawnInterval ∧ s1.message = s.message ∧ s1.keys = s.keys ∧
  s1.camera = s.camera ∧ s1.pending = s.pending

/-- The targets of the registry are distinct objects, all created before the counter's
current value. -/
def DistinctTargets (s : State) : Prop :=
  (s.targets.map Target.id).Nodup ∧ ∀ t ∈ s.targets, t.id < s.nextId

/-- The test of lines 168-171 on one target: it is `moving` and closer than 1.4 to the camera. -/
def reaches (h : Host) (cam : Vector3) (t : Target) : Bool :=
  decide (t.type = TargetType.moving) &&
    decide ((Vector3.subVectors cam t.position).length h < 7 / 5)

/-- The loop body at index `i` takes the branch of lines 172-177. -/
def reachesAt (h : Host) (s : State) (i : Nat) : Bool :=
  match s.targets[i]? with
  | some t => reaches h s.camera t
  | none => false

/-- The target after the motion of one frame: the advance of lines 179-180 for a `moving`
target, the idle float of line 183 for any other, at index `i` of the registry. -/
def moved (h : Host) (dt : ℚ) (idleNow : Nat → ℚ) (cam : Vector3) (i : Nat) (t : Target) :
    Target :=
  if t.type = TargetType.moving then
    let dir := (Vector3.subVectors cam t.position).normalize h
    { t with position := t.position.addScaledVector dir (t.speed * dt) }
  else
    { t with position :=
        { t.position with
          y := t.position.y + h.sin (idleNow i * (1 / 1000) + (i : ℚ)) * (1 / 2000) } }

/-- What one loop iteration leaves of the target `t` at index `i`: nothing when it reaches
the player or ends up farther than 250 from the camera, the moved target otherwise. -/
def tickTarget (h : Host) (dt : ℚ) (idleNow : Nat → ℚ) (cam : Vector3) (i : Nat) (t : Target) :
    Option Target :=
  if reaches h cam t then none
  else if (moved h dt idleNow cam i t).position.distanceTo h cam > 250 then none
  else some (moved h dt idleNow cam i t)

/-- The targets that `tickTarget` leaves of a list whose first element has index `i`. -/
def survivors (h : Host) (dt : ℚ) (idleNow : Nat → ℚ) (cam : Vector3) :
    Nat → List Target → List Target
  | _, [] => []
  | i, t :: ts =>
    (tickTarget h dt idleNow cam i t).toList ++ survivors h dt idleNow cam (i + 1) ts

/-- The state after the first `k` iterations of the loop of `updateTargets` when `n`
indices are still to be visited. -/
def updateTargetsFirst (h : Host) (dt : ℚ) (idleNow : Nat → ℚ) : Nat → Nat → State → State
  | 0, _, s => s
  | _ + 1, 0, s => s
  | k + 1, n + 1, s => updateTargetsFirst h dt idleNow k n (updateTargetsBody h dt idleNow n s)

/-- The number of reach-player events among the first `k` iterations of the loop of
`updateTargets` when `n` indices are still to be visited. -/
def reachEventsFirst (h : Host) (dt : ℚ) (idleNow : Nat → ℚ) : Nat → Nat → State → Nat
  | 0, _, _ => 0
  | _ + 1, 0, _ => 0
  | k + 1, n + 1, s =>
    (if reachesAt h s n then 1 else 0) +
      reachEventsFirst h dt idleNow k n (updateTargetsBody h dt idleNow n s)

/-- The state in the middle of a frame of a running round, after the spawn logic, the
countdown and the first `k` iterations of the loop of `updateTargets`. -/
def midFrame (h : Host) (inp : FrameInput) (k : Nat) (s : State) : State :=
  updateTargetsFirst h inp.dt inp.idleNow k (timerStep inp.dt (spawnStep h inp s)).targets.length
    (timerStep inp.dt (spawnStep h inp s))

/-- The number of reach-player events of a frame up to the point of `midFrame`. -/
def midFrameEvents (h : Host) (inp : FrameInput) (k : Nat) (s : State) : Nat :=
  reachEventsFirst h inp.dt inp.idleNow k (timerStep inp.dt (spawnStep h inp s)).targets.length
    (timerStep inp.dt (spawnStep h inp s))

/-- The number of reach-player events of one call of `animate`. -/
def frameEvents (h : Host) (inp : FrameInput) (s : State) : Nat :=
  if s.running then
    midFrameEvents h inp (timerStep inp.dt (spawnStep h inp s)).targets.length s
  else 0

/-- The number of reach-player events of one action. -/
def actionEvents (h : Host) (s : State) : Action → Nat
  | Action.frame inp => frameEvents h inp s
  | _ => 0

/-- The number of reach-player events of a sequence of actions. -/
def reachEvents (h : Host) : State → List Action → Nat
  | _, [] => 0
  | s, a :: as => actionEvents h s a + reachEvents h (step h s a) as

/-- The actions of play: frames, clicks, delayed removals and movement keys. -/
def Action.isPlay : Action → Bool
  | Action.frame _ => true
  | Action.mousedown _ _ => true
  | Action.timeout => true
  | Action.keydown _ => true
  | Action.keyup _ => true
  | _ => false

/-- A sample of the random draws of one spawn. -/
def sampleDraw : SpawnDraw :=
  ⟨1 / 2, 1 / 2, 1 / 2, 1 / 2, 1 / 2, 1 / 2, 1 / 2, 1 / 2⟩

/-- A frame with the given `clock.getDelta()` and `performance.now()`, the camera looking
along the negative z axis. -/
def frameAt (dt now : ℚ) : FrameInput :=
  { dt := dt, now := now, draws := fun _ => sampleDraw, idleNow := fun _ => now,
    e0 := 1, e2 := 0, e8 := 0, e10 := 1 }

/-- The relation between a survival round started with difficulty `d` and the number `n` of
reach-player events since its start. -/
def SurvivalInv (d : Int) (n : Nat) (s : State) : Prop :=
  s.mode = "survival" ∧ s.lives = 3 + d - (n : Int) ∧
  (s.running = true ↔ (n : Int) < 3 + d) ∧
  (s.running = false → s.message = endMessage "You were overwhelmed!" s.score)

/-- Every target of the registry is `static`. -/
def AllStatic (s : State) : Prop :=
  ∀ t ∈ s.targets, t.type = TargetType.static

/-- A timed round in which no shot has been fired is running with the value `t` in `timer`. -/
def TimedRunning (t : ℚ) (s : State) : Prop :=
  s.mode = "timed" ∧ AllStatic s ∧ s.score = 0 ∧ s.running = true ∧ s.timer = t

/-- The value of `timer` after the given frames when it was `t` before them: each frame
replaces it by the double nearest to `timer - dt` (line 209). -/
def countdown : ℚ → List FrameInput → ℚ
  | t, [] => t
  | t, inp :: ins => countdown (roundDouble (t - inp.dt)) ins

/-- The value of `timer`, `t` before the given frames, is above 0 after each of them. -/
def staysPositive : ℚ → List FrameInput → Prop
  | _, [] => True
  | t, inp :: ins => 0 < roundDouble (t - inp.dt) ∧ staysPositive (roundDouble (t - inp.dt)) ins

/-- The sequence of actions that consists of the given frames. -/
def frames (ins : List FrameInput) : List Action :=
  ins.map Action.frame

/-- The sum of the `clock.getDelta()` values of a list of frames. -/
def elapsed (ins : List FrameInput) : ℚ :=
  (ins.map FrameInput.dt).sum

/-- Three frames whose `clock.getDelta()` values are the doubles nearest to 20.008, 20.008
and 19.984 seconds; the three doubles add up to 60 exactly. -/
def slowFrames : List FrameInput :=
  [frameAt (5631751334026805 / 281474976710656) 20008,
   frameAt (5631751334026805 / 281474976710656) 40016,
   frameAt (2812497967292875 / 140737488355328) 60000]

/-- A `moving` target at distance 251 from the initial camera position, with speed 1. -/
def farTarget : Target :=
  { id := 0, position := ⟨0, 8 / 5, -246⟩, type := TargetType.moving, size := 2 / 5,
    hit := false, speed := 1 }

/-- A running round whose only target is `farTarget`. -/
def farRound : State :=
  { init with running := true, targets := [farTarget], nextId := 1 }

/-- A `moving` target at distance 2 from the initial camera position, with speed 1. -/
def nearTarget : Target :=
  { id := 0, position := ⟨0, 8 / 5, 3⟩, type := TargetType.moving, size := 2 / 5,
    hit := false, speed := 1 }

/-- A running round whose only target is `nearTarget`. -/
def nearRound : State :=
  { init with running := true, targets := [nearTarget], nextId := 1 }

/-- A `moving` target at distance 1.3 from the initial camera position, with speed 1. -/
def closeTarget : Target :=
  { id := 0, position := ⟨0, 8 / 5, 37 / 10⟩, type := TargetType.moving, size := 2 / 5,
    hit := false, speed := 1 }

/-- A running survival round of difficulty 1 on its last life, whose only target is
`closeTarget`. -/
def lastLifeRound : State :=
  { init with mode := "survival", running := true, lives := 1, targets := [closeTarget],
              spawnInterval := some 1700, nextId := 1 }

/-- A click that hits `closeTarget`, the next frame a sixtieth of a second later, and then
the delayed callback of the click. -/
def hitThenFrame : List Action :=
  [Action.mousedown 0 [closeTarget], Action.frame (frameAt (1 / 60) 100), Action.timeout]

/-- The hit resolver as the specification allows a reimplementation to have it: `shoot` with
the hit target removed from the registry at the hit, not by a delayed callback. -/
def shootImmediate (intersects : List Target) (s : State) : State :=
  if !s.running then s
  else
    match intersects with
    | hit :: _ => destroyTarget hit { s with score := s.score + 1 }
    | [] => s

/-- One action applied to a state, with `shootImmediate` in the place of `shoot`. -/
def stepImmediate (h : Host) (s : State) : Action → State
  | Action.mousedown button intersects => if button = 0 then shootImmediate intersects s else s
  | a => step h s a

/-- A sequence of actions applied in order, with `shootImmediate` in the place of `shoot`. -/
def runImmediate (h : Host) (s : State) (as : List Action) : State :=
  as.foldl (stepImmediate h) s

/-- A running survival round of difficulty 3 in which a spawn is due at time 600. -/
def spawnRound : State :=
  { init with mode := "survival", difficulty := 3, running := true,
              spawnInterval := some (1700 / 3) }

/-- Random draws that put a `moving` target of speed 1 straight ahead of the camera, at
distance 6 and at the camera's height. -/
def aheadDraw : SpawnDraw :=
  { typeRoll := 1 / 2, sizeRoll := 1 / 2, angleRoll := 1 / 2, distanceRoll := 0,
    jitterX := 1 / 2, jitterZ := 1 / 2, heightRoll := 3 / 10, speedRoll := 7 / 9 }

/-- A frame like `frameAt` whose spawns all use `aheadDraw`. -/
def frameAhead (dt now : ℚ) : FrameInput :=
  { dt := dt, now := now, draws := fun _ => aheadDraw, idleNow := fun _ => now,
    e0 := 1, e2 := 0, e8 := 0, e10 := 1 }

/-- The target that `aheadDraw` spawns, with identity `i`, moved to depth `z`. -/
def spawnedAhead (i : Nat) (z : ℚ) : Target :=
  { id := i, position := ⟨0, 8 / 5, z⟩, type := TargetType.moving, size := 17 / 40,
    hit := false, speed := 1 }

/-- The survival round of difficulty 2 started from the initial state at time 0. -/
def survivalStart : State :=
  startGame "survival" 2 0 init

/-- The round `survivalStart` after its first spawn, at time 1000, with both targets at
depth `z`. -/
def pairRound (z : ℚ) : State :=
  { survivalStart with targets := [spawnedAhead 0 z, spawnedAhead 1 z], nextId := 2,
                       lastSpawn := 1000 }

/-- A frame of five seconds in which two targets spawn and advance to distance 1, and the
next frame, in which both reach the player. -/
def twoFrames : List Action :=
  [Action.frame (frameAhead 5 1000), Action.frame (frameAhead (1 / 60) 1016)]

/-! ## Theorems -/

/-! ### Fields that a function leaves alone -/

theorem destroyTarget_fields (t : Target) (s : State) :
    (destroyTarget t s).score = s.score ∧ (destroyTarget t s).lives = s.lives ∧
    (destroyTarget t s).running = s.running ∧ (destroyTarget t s).message = s.message ∧
    (destroyTarget t s).mode = s.mode ∧ (destroyTarget t s).timer = s.timer ∧
    (destroyTarget t s).camera = s.camera ∧ (destroyTarget t s).difficulty = s.difficulty ∧
    (destroyTarget t s).pending = s.pending := by
  unfold destroyTarget
  split <;> simp

theorem despawnIfFar_fields (h : Host) (t : Target) (s : State) :
    (despawnIfFar h t s).score = s.score ∧ (despawnIfFar h t s).lives = s.lives ∧
    (despawnIfFar h t s).running = s.running ∧ (despawnIfFar h t s).message = s.message ∧
    (despawnIfFar h t s).mode = s.mode ∧ (despawnIfFar h t s).timer = s.timer ∧
    (despawnIfFar h t s).camera = s.camera ∧ (despawnIfFar h t s).difficulty = s.difficulty ∧
    (despawnIfFar h t s).pending = s.pending := by
  unfold despawnIfFar
  split
  · exact destroyTarget_fields t s
  · simp

theorem updateTargetsBody_score (h : Host) (dt : ℚ) (idleNow : Nat → ℚ) (i : Nat) (s : State) :
    (updateTargetsBody h dt idleNow i s).score = s.score := by
  unfold updateTargetsBody
  split
  · rfl
  · dsimp only
    split_ifs
    · simp [endGame, (destroyTarget_fields _ s).1]
    · simp [(destroyTarget_fields _ s).1]
    · simp [(despawnIfFar_fields h _ _).1]
    · simp [(despawnIfFar_fields h _ _).1]

theorem updateTargetsLoop_score (h : Host) (dt : ℚ) (idleNow : Nat → ℚ) (n : Nat) (s : State) :
    (updateTargetsLoop h dt idleNow n s).score = s.score := by
  induction n generalizing s with
  | zero => rfl
  | succ n ih =>
    rw [updateTargetsLoop, ih, updateTargetsBody_score]

theorem spawnLoop_score (h : Host) (draws : Nat → SpawnDraw) (i n : Nat) (s : State) :
    (spawnLoop h draws i n s).score = s.score := by
  induction n generalizing i s with
  | zero => rfl
  | succ n ih =>
    rw [spawnLoop, ih]
    rfl

theorem animate_score (h : Host) (inp : FrameInput) (s : State) :
    (animate h inp s).score = s.score := by
  unfold animate
  split
  · have h1 : (spawnStep h inp s).score = s.score := by
      unfold spawnStep
      split
      · rw [spawnLoop_score]
      · rfl
    have h2 : (timerStep inp.dt (spawnStep h inp s)).score = s.score := by
      unfold timerStep
      dsimp only
      split_ifs <;> simp [endGame, h1]
    have h3 : (updateMovement h inp
        (updateTargets h inp.dt inp.idleNow (timerStep inp.dt (spawnStep h inp s)))).score
        = (updateTargets h inp.dt inp.idleNow (timerStep inp.dt (spawnStep h inp s))).score := by
      unfold updateMovement
      dsimp only
      split_ifs <;> rfl
    rw [h3, updateTargets, updateTargetsLoop_score, h2]
  · rfl

/-! ### Claims about single functions -/

/-- C1: from every prior state, with every selected mode and difficulty, `startGame` sets the
score to 0, empties the registry, sets `running`, clears the message and records the current
time; it sets the timer to 60 in timed mode, the lives to `3 + d` in survival mode, and leaves
timer and lives alone in practice mode. -/
theorem startGame_resets (sel : String) (d : Int) (now : ℚ) (s : State) :
    (startGame sel d now s).score = 0 ∧ (startGame sel d now s).targets = [] ∧
    (startGame sel d now s).running = true ∧ (startGame sel d now s).message = "" ∧
    (startGame sel d now s).lastSpawn = now ∧
    (startGame "timed" d now s).timer = 60 ∧
    (startGame "survival" d now s).lives = 3 + d ∧
    (startGame "practice" d now s).timer = s.timer ∧
    (startGame "practice" d now s).lives = s.lives := by
  refine ⟨?_, ?_, ?_, ?_, ?_, ?_, ?_, ?_, ?_⟩
  · unfold startGame
    simp only
    split_ifs <;> rfl
  · unfold startGame
    simp only
    split_ifs <;> rfl
  · rfl
  · rfl
  · rfl
  · simp [startGame]
  · simp [startGame]
  · simp [startGame]
  · simp [startGame]

/-- C8: calling `endGame(msg)` a second time changes nothing: the whole state, and so
the running flag, message, score, timer, lives and registry, is the one left by the first
call, in which `running` is false. -/
theorem endGame_idempotent (msg : String) (s : State) :
    endGame msg (endGame msg s) = endGame msg s ∧ (endGame msg s).running = false := by
  constructor <;> rfl

/-- C6: no action other than the start action lowers the score of a running round, and none
changes the score of a round that is not running. -/
theorem score_never_falls (h : Host) (s : State) (a : Action) (ha : a.isStart = false) :
    (s.running = true → s.score ≤ (step h s a).score) ∧
    (s.running = false → (step h s a).score = s.score) := by
  cases a with
  | start sel dval now => simp [Action.isStart] at ha
  | frame inp => simp [step, animate_score]
  | mousedown button intersects =>
    constructor
    · intro _
      simp only [step, mousedown, shoot]
      split_ifs
      · exact le_refl _
      · split
        · simp
        · exact le_refl _
      · exact le_refl _
    · intro hr
      simp only [step, mousedown, shoot]
      split_ifs
      · rfl
      · simp [hr] at *
      · rfl
  | timeout =>
    have key : (timeoutFires s).score = s.score := by
      unfold timeoutFires
      split
      · rfl
      · simp [(destroyTarget_fields _ _).1]
    simp [step, key]
  | keydown code => simp [step, keydown]
  | keyup code => simp [step, keyup]
  | modeChange value => simp [step, modeChange]
  | difficultyInput dval => simp [step, difficultyInput]
  | endGame msg => simp [step, endGame]

/-- Witness of C6: a shot that hits in the running round `roundWithTargetAhead`. -/
theorem score_never_falls_witness :
    (roundWithTargetAhead.running = true →
      roundWithTargetAhead.score ≤
        (step sampleHost roundWithTargetAhead (Action.mousedown 0 [targetAhead])).score) ∧
    (roundWithTargetAhead.running = false →
      (step sampleHost roundWithTargetAhead (Action.mousedown 0 [targetAhead])).score
        = roundWithTargetAhead.score) :=
  score_never_falls sampleHost roundWithTargetAhead (Action.mousedown 0 [targetAhead]) rfl

/-! ### The concrete host -/

theorem ratSqrt_mul_self (q : ℚ) (hq : 0 ≤ q) : ratSqrt (q * q) = q := by
  have hnum : 0 ≤ q.num := Rat.num_nonneg.mpr hq
  unfold ratSqrt
  rw [Rat.mul_self_num, Rat.mul_self_den, Nat.sqrt_eq]
  have h1 : (q.num * q.num).toNat = q.num.toNat * q.num.toNat := by
    apply Int.ofNat.inj
    simp only [Int.ofNat_eq_coe]
    push_cast
    rw [Int.toNat_of_nonneg hnum, Int.toNat_of_nonneg (mul_nonneg hnum hnum)]
  rw [h1, Nat.sqrt_eq]
  have h2 : ((q.num.toNat : ℕ) : ℚ) = (q.num : ℚ) := by
    have : ((q.num.toNat : ℕ) : ℤ) = q.num := Int.toNat_of_nonneg hnum
    exact_mod_cast this
  rw [h2]
  exact Rat.num_div_den q

/-! ### Removal by identity -/

theorem eraseFirst_eq_filter (l : List Target) (k : Nat) (hn : (l.map Target.id).Nodup) :
    (match l.findIdx? (fun u => u.id == k) with
      | some idx => l.eraseIdx idx
      | none => l) = l.filter (fun u => u.id != k) := by
  induction l with
  | nil => simp
  | cons a l ih =>
    rw [List.map_cons, List.nodup_cons] at hn
    by_cases hak : a.id = k
    · have hall : ∀ u ∈ l, u.id ≠ k := by
        intro u hu huk
        exact hn.1 (List.mem_map.mpr ⟨u, hu, by rw [huk, hak]⟩)
      have hfil : l.filter (fun u => u.id != k) = l := by
        rw [List.filter_eq_self]
        intro u hu
        simpa using hall u hu
      simp [hak, hfil]
    · have ih1 := ih hn.2
      rw [List.findIdx?_cons]
      simp only [beq_iff_eq, hak, if_false, List.findIdx?_succ]
      cases hf : l.findIdx? (fun u => u.id == k) with
      | none =>
        rw [hf] at ih1
        simp only [Option.map_none'] at *
        rw [List.filter_cons]
        simp [hak, ← ih1]
      | some idx =>
        rw [hf] at ih1
        simp only [Option.map_some'] at *
        rw [List.filter_cons]
        simp [hak, ← ih1]

theorem destroyTarget_targets (t : Target) (s : State) (hn : (s.targets.map Target.id).Nodup) :
    (destroyTarget t s).targets = s.targets.filter (fun u => u.id != t.id) := by
  rw [← eraseFirst_eq_filter s.targets t.id hn]
  unfold destroyTarget
  split <;> rename_i heq <;> simp [heq]

/-! ### The hit resolver -/

/-- C2, as stated, fails: in the running round `roundWithTargetAhead` the ray meets
`targetAhead`, and after `shoot` has returned that target is still in the registry. -/
theorem shoot_keeps_target_counterexample :
    roundWithTargetAhead.running = true ∧
    targetAhead ∈ (shoot [targetAhead] roundWithTargetAhead).targets := by
  simp [shoot, roundWithTargetAhead, init]

/-- C2, amended: in a running round, when the nearest intersected target `hit` has no removal
pending, `shoot` adds exactly 1 to the score, leaves the registry as it is and registers one
delayed removal of `hit`.  When the delayed removal of `hit` runs, in a registry of distinct
targets, it removes `hit` and nothing else, keeps the order of the others and the score.  With
an empty intersection list, or when the round is not running, `shoot` changes nothing. -/
theorem shoot_scores_and_schedules (hit : Target) (others : List Target) (s : State)
    (hrun : s.running = true) (hfresh : ∀ p ∈ s.pending, p.id ≠ hit.id) :
    (shoot (hit :: others) s).score = s.score + 1 ∧
    (shoot (hit :: others) s).targets = s.targets ∧
    (shoot (hit :: others) s).pending = s.pending ++ [hit] ∧
    (∀ later : State, (later.targets.map Target.id).Nodup → later.pending.head? = some hit →
      (timeoutFires later).targets = later.targets.filter (fun u => u.id != hit.id) ∧
      (timeoutFires later).score = later.score ∧
      (timeoutFires later).pending = later.pending.tail) ∧
    shoot [] s = s ∧
    (∀ (l : List Target) (ended : State), ended.running = false → shoot l ended = ended) := by
  refine ⟨?_, ?_, ?_, ?_, ?_, ?_⟩
  · simp [shoot, hrun]
  · simp [shoot, hrun]
  · simp [shoot, hrun]
  · intro later hn hp
    unfold timeoutFires
    cases hpl : later.pending with
    | nil => simp [hpl] at hp
    | cons p ps =>
      simp only [hpl, List.head?_cons, Option.some.injEq] at hp
      subst hp
      refine ⟨?_, ?_, ?_⟩
      · exact destroyTarget_targets p _ hn
      · exact (destroyTarget_fields p _).1
      · simp [(destroyTarget_fields p _).2.2.2.2.2.2.2.2]
  · simp [shoot]
  · intro l ended he
    simp [shoot, he]

/-- Witness of C2, amended: the shot at `targetAhead` in `roundWithTargetAhead`. -/
theorem shoot_scores_and_schedules_witness :
    (shoot [targetAhead] roundWithTargetAhead).score = roundWithTargetAhead.score + 1 ∧
    (shoot [targetAhead] roundWithTargetAhead).targets = roundWithTargetAhead.targets ∧
    (shoot [targetAhead] roundWithTargetAhead).pending
      = roundWithTargetAhead.pending ++ [targetAhead] :=
  have key := shoot_scores_and_schedules targetAhead [] roundWithTargetAhead rfl
    (by simp [roundWithTargetAhead, init])
  ⟨key.1, key.2.1, key.2.2.1⟩

/-! ### The spawner -/

theorem spawnTarget_sameRound (h : Host) (ty : TargetType) (r : SpawnDraw) (s : State) :
    SameRound s (spawnTarget h ty r s) := by
  simp [SameRound, spawnTarget]

theorem SameRound.trans {a b c : State} (hab : SameRound a b) (hbc : SameRound b c) :
    SameRound a c := by
  unfold SameRound at *
  obtain ⟨h1, h2, h3, h4, h5, h6, h7, h8, h9, h10, h11, h12⟩ := hab
  obtain ⟨k1, k2, k3, k4, k5, k6, k7, k8, k9, k10, k11, k12⟩ := hbc
  exact ⟨k1.trans h1, k2.trans h2, k3.trans h3, k4.trans h4, k5.trans h5, k6.trans h6,
    k7.trans h7, k8.trans h8, k9.trans h9, k10.trans h10, k11.trans h11, k12.trans h12⟩

theorem SameRound.refl (s : State) : SameRound s s := by
  simp [SameRound]

theorem spawnLoop_spec (h : Host) (draws : Nat → SpawnDraw) (i n : Nat) (s : State) :
    ∃ fresh : List Target,
      (spawnLoop h draws i n s).targets = s.targets ++ fresh ∧ fresh.length = n ∧
      (∀ t ∈ fresh, t.type = TargetType.moving → s.mode = "survival") ∧
      fresh.map Target.id = List.range' s.nextId n ∧
      (spawnLoop h draws i n s).nextId = s.nextId + n ∧
      SameRound s (spawnLoop h draws i n s) := by
  induction n generalizing i s with
  | zero => exact ⟨[], by simp [spawnLoop, SameRound.refl]⟩
  | succ n ih =>
    obtain ⟨fresh, h1, h2, h3, h4, h5, h6⟩ :=
      ih (i + 1) (spawnTarget h (rollType s.mode (draws i).typeRoll) (draws i) s)
    have hsame := spawnTarget_sameRound h (rollType s.mode (draws i).typeRoll) (draws i) s
    let mesh : Target := (spawnTarget h (rollType s.mode (draws i).typeRoll) (draws i) s).targets.getLast
      (by simp [spawnTarget])
    refine ⟨mesh :: fresh, ?_, ?_, ?_, ?_, ?_, ?_⟩
    · rw [spawnLoop, h1]
      simp [mesh, spawnTarget]
    · simp [h2]
    · intro t ht hty
      rcases List.mem_cons.mp ht with rfl | ht
      · simp only [mesh, spawnTarget, List.getLast_append_singleton, rollType] at hty
        by_contra hmode
        simp [hmode] at hty
      · have := h3 t ht hty
        rw [hsame.1] at this
        exact this
    · rw [List.map_cons, h4, List.range'_succ]
      simp [mesh, spawnTarget]
    · rw [spawnLoop, h5]
      simp [spawnTarget]
      omega
    · rw [spawnLoop]
      exact hsame.trans h6

/-- C5: with difficulty `d ≥ 1`, in every mode, the spawn step of a frame appends exactly `d`
new targets to the registry and sets `lastSpawn` to `now` when `now - lastSpawn` exceeds the
spawn interval, and changes nothing when it does not; a new target is `moving` only in
survival mode, so that every target spawned in practice or timed mode is `static`. -/
theorem spawnStep_adds_difficulty_many (h : Host) (inp : FrameInput) (s : State) (iv : ℚ)
    (hd : 1 ≤ s.difficulty) (hiv : s.spawnInterval = some iv) :
    (iv < inp.now - s.lastSpawn →
      ∃ fresh : List Target,
        (spawnStep h inp s).targets = s.targets ++ fresh ∧
        (fresh.length : Int) = s.difficulty ∧
        (spawnStep h inp s).lastSpawn = inp.now ∧
        (∀ t ∈ fresh, t.type = TargetType.moving → s.mode = "survival") ∧
        (s.mode = "practice" ∨ s.mode = "timed" → ∀ t ∈ fresh, t.type = TargetType.static)) ∧
    (inp.now - s.lastSpawn ≤ iv → spawnStep h inp s = s) := by
  constructor
  · intro hlt
    have hdue : spawnDue inp.now s = true := by
      simp [spawnDue, hiv, hlt]
    obtain ⟨fresh, h1, h2, h3, _, _, h6⟩ :=
      spawnLoop_spec h inp.draws 0 s.difficulty.toNat { s with lastSpawn := inp.now }
    refine ⟨fresh, ?_, ?_, ?_, ?_, ?_⟩
    · simp [spawnStep, hdue, h1]
    · rw [h2]
      exact Int.toNat_of_nonneg (by omega)
    · simp only [spawnStep, hdue, if_true]
      exact h6.2.2.2.2.2.2.1
    · exact h3
    · intro hmode t ht
      cases hty : t.type with
      | static => rfl
      | moving =>
        have hsurv : s.mode = "survival" := h3 t ht hty
        rcases hmode with hm | hm <;> rw [hm] at hsurv <;> exact absurd hsurv (by decide)
  · intro hle
    have hdue : spawnDue inp.now s = false := by
      simp [spawnDue, hiv, hle]
    simp [spawnStep, hdue]

/-! ### One iteration of the loop of `updateTargets` -/

theorem destroyTarget_at (pre post : List Target) (u t : Target) (s : State)
    (hs : s.targets = pre ++ u :: post) (hid : u.id = t.id)
    (hpre : ∀ v ∈ pre, v.id ≠ t.id) :
    (destroyTarget t s).targets = pre ++ post := by
  have hnone : pre.findIdx? (fun v => v.id == t.id) = none := by
    rw [List.findIdx?_eq_none_iff]
    intro v hv
    simpa using hpre v hv
  have hfind : s.targets.findIdx? (fun v => v.id == t.id) = some pre.length := by
    rw [hs, List.findIdx?_append, hnone]
    simp [hid]
  unfold destroyTarget
  rw [hfind]
  simp only [hs]
  rw [List.eraseIdx_append_of_length_le (le_refl _)]
  simp

theorem despawnIfFar_at (h : Host) (pre post : List Target) (t1 : Target) (s : State)
    (hs : s.targets = pre ++ t1 :: post) (hpre : ∀ v ∈ pre, v.id ≠ t1.id) :
    (despawnIfFar h t1 s).targets
      = pre ++ ((if t1.position.distanceTo h s.camera > 250 then none else some t1).toList
          ++ post) := by
  unfold despawnIfFar
  split_ifs with hfar
  · rw [destroyTarget_at pre post t1 t1 s hs rfl hpre]
    simp
  · simp [hs]

theorem updateTargetsBody_at (h : Host) (dt : ℚ) (idleNow : Nat → ℚ) (pre post : List Target)
    (t : Target) (s : State) (hs : s.targets = pre ++ t :: post)
    (hpre : ∀ v ∈ pre, v.id ≠ t.id) :
    (updateTargetsBody h dt idleNow pre.length s).targets
      = pre ++ ((tickTarget h dt idleNow s.camera pre.length t).toList ++ post) := by
  have hget : s.targets[pre.length]? = some t := by
    rw [hs, List.getElem?_append_right (le_refl _)]
    simp
  have hset : ∀ t1 : Target, s.targets.set pre.length t1 = pre ++ t1 :: post := by
    intro t1
    rw [hs, List.set_append_right _ _ (le_refl _)]
    simp
  have hfar : ∀ t1 : Target, t1.id = t.id →
      (despawnIfFar h t1 { s with targets := s.targets.set pre.length t1 }).targets
        = pre ++ ((if t1.position.distanceTo h s.camera > 250 then none else some t1).toList
            ++ post) := by
    intro t1 hid
    exact despawnIfFar_at h pre post t1 _ (hset t1) (by rw [hid]; exact hpre)
  unfold updateTargetsBody
  rw [hget]
  dsimp only
  by_cases hty : t.type = TargetType.moving
  · by_cases hnear : (Vector3.subVectors s.camera t.position).length h < 7 / 5
    · have hr : reaches h s.camera t = true := by simp [reaches, hty, hnear]
      have hd := destroyTarget_at pre post t t s hs rfl hpre
      rw [if_pos hty, if_pos hnear]
      simp only [tickTarget, hr, if_true]
      split_ifs <;> simp [endGame, hd]
    · have hr : reaches h s.camera t = false := by simp [reaches, hty, hnear]
      have key := hfar (moved h dt idleNow s.camera pre.length t)
        (by unfold moved; split_ifs; rfl)
      rw [if_pos hty, if_neg hnear]
      simp only [tickTarget, hr, Bool.false_eq_true, if_false]
      simp only [moved, if_pos hty] at key ⊢
      exact key
  · have hr : reaches h s.camera t = false := by simp [reaches, hty]
    have key := hfar (moved h dt idleNow s.camera pre.length t)
      (by unfold moved; split_ifs; rfl)
    rw [if_neg hty]
    simp only [tickTarget, hr, Bool.false_eq_true, if_false]
    simp only [moved, if_neg hty] at key ⊢
    exact key

theorem updateTargetsBody_keeps (h : Host) (dt : ℚ) (idleNow : Nat → ℚ) (i : Nat) (s : State) :
    (updateTargetsBody h dt idleNow i s).mode = s.mode ∧
    (updateTargetsBody h dt idleNow i s).timer = s.timer ∧
    (updateTargetsBody h dt idleNow i s).camera = s.camera ∧
    (updateTargetsBody h dt idleNow i s).pending = s.pending := by
  have hd := fun t => destroyTarget_fields t s
  unfold updateTargetsBody
  split
  · simp
  · dsimp only
    split_ifs
    · simp [endGame, hd]
    · simp [hd]
    · simp [despawnIfFar_fields]
    · simp [despawnIfFar_fields]

theorem updateTargetsBody_round (h : Host) (dt : ℚ) (idleNow : Nat → ℚ) (i : Nat) (s : State) :
    (reachesAt h s i = false →
      (updateTargetsBody h dt idleNow i s).lives = s.lives ∧
      (updateTargetsBody h dt idleNow i s).running = s.running ∧
      (updateTargetsBody h dt idleNow i s).message = s.message) ∧
    (reachesAt h s i = true →
      (updateTargetsBody h dt idleNow i s).lives = s.lives - 1 ∧
      (s.lives - 1 ≤ 0 →
        (updateTargetsBody h dt idleNow i s).running = false ∧
        (updateTargetsBody h dt idleNow i s).message
          = endMessage "You were overwhelmed!" s.score) ∧
      (0 < s.lives - 1 →
        (updateTargetsBody h dt idleNow i s).running = s.running ∧
        (updateTargetsBody h dt idleNow i s).message = s.message)) := by
  have hd := fun t => destroyTarget_fields t s
  unfold updateTargetsBody reachesAt
  cases hget : s.targets[i]? with
  | none => simp
  | some t =>
    dsimp only
    by_cases hty : t.type = TargetType.moving
    · by_cases hnear : (Vector3.subVectors s.camera t.position).length h < 7 / 5
      · have hr : reaches h s.camera t = true := by simp [reaches, hty, hnear]
        rw [if_pos hty, if_pos hnear]
        simp only [hr, hd]
        constructor
        · intro hf
          exact absurd hf (by simp)
        · intro _
          refine ⟨?_, ?_, ?_⟩
          · split_ifs <;> simp [endGame, hd]
          · intro hle
            rw [if_pos hle]
            simp [endGame, hd]
          · intro hlt
            rw [if_neg (not_le.mpr hlt)]
            simp [hd]
      · have hr : reaches h s.camera t = false := by simp [reaches, hty, hnear]
        rw [if_pos hty, if_neg hnear]
        simp [hr, despawnIfFar_fields]
    · have hr : reaches h s.camera t = false := by simp [reaches, hty]
      rw [if_neg hty]
      simp [hr, despawnIfFar_fields]

/-! ### The loop of `updateTargets` -/

theorem updateTargetsLoop_eq_first (h : Host) (dt : ℚ) (idleNow : Nat → ℚ) (n : Nat)
    (s : State) :
    updateTargetsLoop h dt idleNow n s = updateTargetsFirst h dt idleNow n n s := by
  induction n generalizing s with
  | zero => rfl
  | succ n ih => rw [updateTargetsLoop, updateTargetsFirst, ih]

theorem updateTargetsFirst_round (h : Host) (dt : ℚ) (idleNow : Nat → ℚ) (k n : Nat)
    (s : State) :
    (updateTargetsFirst h dt idleNow k n s).lives
      = s.lives - (reachEventsFirst h dt idleNow k n s : ℤ) ∧
    (updateTargetsFirst h dt idleNow k n s).mode = s.mode ∧
    (updateTargetsFirst h dt idleNow k n s).score = s.score ∧
    (updateTargetsFirst h dt idleNow k n s).timer = s.timer ∧
    (updateTargetsFirst h dt idleNow k n s).camera = s.camera ∧
    (updateTargetsFirst h dt idleNow k n s).pending = s.pending ∧
    ((0 < reachEventsFirst h dt idleNow k n s ∧
        s.lives - (reachEventsFirst h dt idleNow k n s : ℤ) ≤ 0) →
      (updateTargetsFirst h dt idleNow k n s).running = false ∧
      (updateTargetsFirst h dt idleNow k n s).message
        = endMessage "You were overwhelmed!" s.score) ∧
    (¬ (0 < reachEventsFirst h dt idleNow k n s ∧
        s.lives - (reachEventsFirst h dt idleNow k n s : ℤ) ≤ 0) →
      (updateTargetsFirst h dt idleNow k n s).running = s.running ∧
      (updateTargetsFirst h dt idleNow k n s).message = s.message) := by
  induction k generalizing n s with
  | zero => simp [updateTargetsFirst, reachEventsFirst]
  | succ k ih =>
    cases n with
    | zero => simp [updateTargetsFirst, reachEventsFirst]
    | succ n =>
      obtain ⟨i1, i2, i3, i4, i5, i6, i7, i8⟩ := ih n (updateTargetsBody h dt idleNow n s)
      obtain ⟨b1, b2, b3, b4⟩ := updateTargetsBody_keeps h dt idleNow n s
      have bs := updateTargetsBody_score h dt idleNow n s
      obtain ⟨r1, r2⟩ := updateTargetsBody_round h dt idleNow n s
      rw [updateTargetsFirst, reachEventsFirst]
      rw [bs] at i7
      refine ⟨?_, i2.trans b1, i3.trans bs, i4.trans b2, i5.trans b3, i6.trans b4, ?_, ?_⟩
      · cases hr : reachesAt h s n with
        | false =>
          rw [i1, (r1 hr).1]
          simp
        | true =>
          rw [i1, (r2 hr).1]
          push_cast
          simp
          ring
      · rintro ⟨hpos, hle⟩
        cases hr : reachesAt h s n with
        | false =>
          simp only [hr, Bool.false_eq_true, if_false, Nat.zero_add] at hpos hle
          rw [← (r1 hr).1] at hle
          exact i7 ⟨hpos, hle⟩
        | true =>
          obtain ⟨l1, l2, l3⟩ := r2 hr
          simp only [hr, if_true] at hle
          push_cast at hle
          by_cases hend : 0 < reachEventsFirst h dt idleNow k n (updateTargetsBody h dt idleNow n s)
          · apply i7
            refine ⟨hend, ?_⟩
            rw [l1]
            linarith
          · have hz : reachEventsFirst h dt idleNow k n (updateTargetsBody h dt idleNow n s) = 0 := by
              omega
            have hle1 : s.lives - 1 ≤ 0 := by
              rw [hz] at hle
              simpa using hle
            obtain ⟨j1, j2⟩ := i8 (fun hc => hend hc.1)
            rw [j1, j2]
            exact l2 hle1
      · intro hnot
        cases hr : reachesAt h s n with
        | false =>
          simp only [hr, Bool.false_eq_true, if_false, Nat.zero_add] at hnot
          obtain ⟨l1, l2, l3⟩ := r1 hr
          rw [← l1] at hnot
          obtain ⟨j1, j2⟩ := i8 hnot
          rw [j1, j2, l2, l3]
          exact ⟨rfl, rfl⟩
        | true =>
          obtain ⟨l1, l2, l3⟩ := r2 hr
          simp only [hr, if_true] at hnot
          push_cast at hnot
          have hlt : 0 < s.lives - (1 + (reachEventsFirst h dt idleNow k n
              (updateTargetsBody h dt idleNow n s) : ℤ)) := by
            by_contra hc
            exact hnot ⟨by omega, by linarith⟩
          have hnot1 : ¬ (0 < reachEventsFirst h dt idleNow k n
              (updateTargetsBody h dt idleNow n s) ∧
              (updateTargetsBody h dt idleNow n s).lives - (reachEventsFirst h dt idleNow k n
                (updateTargetsBody h dt idleNow n s) : ℤ) ≤ 0) := by
            rintro ⟨_, hc⟩
            rw [l1] at hc
            linarith
          obtain ⟨j1, j2⟩ := i8 hnot1
          have hl : 0 < s.lives - 1 := by
            have : (0 : ℤ) ≤ (reachEventsFirst h dt idleNow k n
              (updateTargetsBody h dt idleNow n s) : ℤ) := Int.natCast_nonneg _
            linarith
          rw [j1, j2]
          exact l3 hl

/-! ### Frames -/

theorem updateMovement_keeps (h : Host) (inp : FrameInput) (s : State) :
    (updateMovement h inp s).mode = s.mode ∧ (updateMovement h inp s).lives = s.lives ∧
    (updateMovement h inp s).running = s.running ∧
    (updateMovement h inp s).message = s.message ∧
    (updateMovement h inp s).score = s.score ∧ (updateMovement h inp s).timer = s.timer ∧
    (updateMovement h inp s).targets = s.targets := by
  unfold updateMovement
  dsimp only
  split_ifs <;> simp

theorem animate_running (h : Host) (inp : FrameInput) (s : State) (hrun : s.running = true) :
    animate h inp s
      = updateMovement h inp
          (midFrame h inp (timerStep inp.dt (spawnStep h inp s)).targets.length s) := by
  unfold animate midFrame updateTargets
  rw [if_pos hrun, updateTargetsLoop_eq_first]

theorem spawnStep_sameRound (h : Host) (inp : FrameInput) (s : State) :
    (spawnStep h inp s).mode = s.mode ∧ (spawnStep h inp s).lives = s.lives ∧
    (spawnStep h inp s).running = s.running ∧ (spawnStep h inp s).message = s.message ∧
    (spawnStep h inp s).score = s.score ∧ (spawnStep h inp s).timer = s.timer := by
  unfold spawnStep
  split_ifs
  · obtain ⟨_, _, _, _, _, _, hs⟩ :=
      spawnLoop_spec h inp.draws 0 s.difficulty.toNat { s with lastSpawn := inp.now }
    obtain ⟨h1, _, h3, h4, h5, h6, _, _, h9, _, _, _⟩ := hs
    exact ⟨h1, h5, h6, h9, h3, h4⟩
  · simp

/-! ### Survival rounds -/

theorem survivalInv_midFrame (h : Host) (inp : FrameInput) (k : Nat) (d : Int) (n : Nat)
    (s : State) (hinv : SurvivalInv d n s) (hrun : s.running = true) :
    SurvivalInv d (n + midFrameEvents h inp k s) (midFrame h inp k s) := by
  obtain ⟨hmode, hlives, hiff, _⟩ := hinv
  obtain ⟨s1, s2, s3, s4, s5, _⟩ := spawnStep_sameRound h inp s
  have htimer : timerStep inp.dt (spawnStep h inp s) = spawnStep h inp s := by
    unfold timerStep
    rw [if_neg]
    rw [s1, hmode]
    decide
  unfold midFrame midFrameEvents
  rw [htimer]
  obtain ⟨p1, p2, p3, _, _, _, p7, p8⟩ :=
    updateTargetsFirst_round h inp.dt inp.idleNow k (spawnStep h inp s).targets.length
      (spawnStep h inp s)
  have hn : (n : ℤ) < 3 + d := hiff.mp hrun
  generalize reachEventsFirst h inp.dt inp.idleNow k (spawnStep h inp s).targets.length
    (spawnStep h inp s) = e at *
  rw [s2] at p1 p7 p8
  rw [s5] at p7
  refine ⟨p2.trans (s1.trans hmode), ?_, ?_, ?_⟩
  · rw [p1, hlives]
    push_cast
    ring
  · by_cases hend : 0 < e ∧ s.lives - (e : ℤ) ≤ 0
    · rw [(p7 hend).1]
      constructor
      · intro hc
        exact absurd hc (by simp)
      · intro hc
        push_cast at hc
        have := hend.2
        rw [hlives] at this
        linarith
    · rw [(p8 hend).1, s3, hrun]
      simp only [true_iff]
      push_cast
      rcases Nat.eq_zero_or_pos e with he | he
      · rw [he]
        simpa using hn
      · have : ¬ (s.lives - (e : ℤ) ≤ 0) := fun hc => hend ⟨he, hc⟩
        rw [hlives] at this
        linarith
  · intro hstop
    by_cases hend : 0 < e ∧ s.lives - (e : ℤ) ≤ 0
    · rw [(p7 hend).2, p3, s5]
    · rw [(p8 hend).1, s3, hrun] at hstop
      exact absurd hstop (by simp)

theorem survivalInv_step (h : Host) (d : Int) (n : Nat) (s : State) (a : Action)
    (hinv : SurvivalInv d n s) (ha : a.isPlay = true) :
    SurvivalInv d (n + actionEvents h s a) (step h s a) := by
  cases a with
  | start sel dval now => simp [Action.isPlay] at ha
  | modeChange value => simp [Action.isPlay] at ha
  | difficultyInput dval => simp [Action.isPlay] at ha
  | endGame msg => simp [Action.isPlay] at ha
  | frame inp =>
    by_cases hrun : s.running = true
    · have hmid := survivalInv_midFrame h inp
        (timerStep inp.dt (spawnStep h inp s)).targets.length d n s hinv hrun
      obtain ⟨m1, m2, m3, m4, m5, _, _⟩ := updateMovement_keeps h inp
        (midFrame h inp (timerStep inp.dt (spawnStep h inp s)).targets.length s)
      simp only [step, actionEvents, frameEvents, if_pos hrun]
      rw [animate_running h inp s hrun]
      unfold SurvivalInv at hmid ⊢
      rw [m1, m2, m3, m4, m5]
      exact hmid
    · simp only [step, actionEvents, frameEvents, animate, if_neg hrun, Nat.add_zero]
      exact hinv
  | mousedown button intersects =>
    obtain ⟨hmode, hlives, hiff, hmsg⟩ := hinv
    simp only [step, actionEvents, Nat.add_zero, mousedown, shoot]
    by_cases hrun : s.running = true
    · split_ifs
      · exact ⟨hmode, hlives, hiff, hmsg⟩
      · split
        · exact ⟨hmode, hlives, hiff, fun hc => absurd hrun (by simpa using hc)⟩
        · exact ⟨hmode, hlives, hiff, hmsg⟩
      · exact ⟨hmode, hlives, hiff, hmsg⟩
    · have hf : (!s.running) = true := by simpa using hrun
      rw [if_pos hf]
      split_ifs <;> exact ⟨hmode, hlives, hiff, hmsg⟩
  | timeout =>
    obtain ⟨hmode, hlives, hiff, hmsg⟩ := hinv
    simp only [step, actionEvents, Nat.add_zero, timeoutFires]
    split
    · exact ⟨hmode, hlives, hiff, hmsg⟩
    · rename_i hit others hp
      obtain ⟨f1, f2, f3, f4, f5, _⟩ := destroyTarget_fields hit { s with pending := others }
      unfold SurvivalInv
      rw [f1, f2, f3, f4, f5]
      exact ⟨hmode, hlives, hiff, hmsg⟩
  | keydown code => exact hinv
  | keyup code => exact hinv

theorem survivalInv_run (h : Host) (d : Int) (as : List Action) (n : Nat) (s : State)
    (hinv : SurvivalInv d n s) (hplay : ∀ a ∈ as, a.isPlay = true) :
    SurvivalInv d (n + reachEvents h s as) (run h s as) := by
  induction as generalizing n s with
  | nil => exact hinv
  | cons a as ih =>
    have hstep := survivalInv_step h d n s a hinv (hplay a (List.mem_cons_self _ _))
    have := ih (n + actionEvents h s a) (step h s a) hstep
      (fun b hb => hplay b (List.mem_cons_of_mem _ hb))
    rw [reachEvents, ← Nat.add_assoc]
    exact this

theorem survivalInv_start (s : State) (d : Int) (now : ℚ) (hd : 1 ≤ d) :
    SurvivalInv d 0 (startGame "survival" d now s) := by
  refine ⟨?_, ?_, ?_, ?_⟩
  · simp [startGame]
  · simp [startGame]
  · simp only [startGame]
    constructor
    · intro _
      push_cast
      omega
    · intro _
      trivial
  · intro hc
    simp [startGame] at hc

theorem endMessage_contains (msg : String) (n : Nat) : Contains (endMessage msg n) msg := by
  refine ⟨"", " â€” Score: " ++ toString n, ?_⟩
  rw [String.empty_append, ← String.append_assoc]
  rfl

/-- C4: a survival round started with difficulty `d ≥ 1` has `3 + d` lives.  Each
reach-player event (the loop body of `updateTargets` finds a `moving` target closer than 1.4
to the camera) removes that target from a registry of distinct targets and lowers the lives by
exactly 1.  After any sequence of frames, clicks, delayed removals and movement keys, and
also in the middle of a frame after any number of loop iterations, the lives are `3 + d`
minus the number of events so far, the round is running exactly while fewer than `3 + d`
events have occurred, and once it is not running the message is the one built from
"You were overwhelmed!"; so at the `(3 + d)`-th event the lives are 0 and the round is
ended with that message. -/
theorem survival_round_ends_after_all_lives (h : Host) (s : State) (d : Int) (now : ℚ)
    (as : List Action) (hd : 1 ≤ d) (hplay : ∀ a ∈ as, a.isPlay = true) :
    (startGame "survival" d now s).lives = 3 + d ∧
    (∀ (dt : ℚ) (idleNow : Nat → ℚ) (r : State) (i : Nat) (t : Target),
      (r.targets.map Target.id).Nodup → r.targets[i]? = some t →
      reaches h r.camera t = true →
        (updateTargetsBody h dt idleNow i r).targets
          = r.targets.filter (fun u => u.id != t.id) ∧
        (updateTargetsBody h dt idleNow i r).lives = r.lives - 1) ∧
    (run h (startGame "survival" d now s) as).lives
      = 3 + d - (reachEvents h (startGame "survival" d now s) as : ℤ) ∧
    ((run h (startGame "survival" d now s) as).running = true ↔
      (reachEvents h (startGame "survival" d now s) as : ℤ) < 3 + d) ∧
    ((run h (startGame "survival" d now s) as).running = false →
      Contains (run h (startGame "survival" d now s) as).message "You were overwhelmed!") ∧
    (∀ (inp : FrameInput) (k : Nat),
      (run h (startGame "survival" d now s) as).running = true →
        (midFrame h inp k (run h (startGame "survival" d now s) as)).lives
          = 3 + d - ((reachEvents h (startGame "survival" d now s) as : ℤ)
              + (midFrameEvents h inp k (run h (startGame "survival" d now s) as) : ℤ)) ∧
        ((midFrame h inp k (run h (startGame "survival" d now s) as)).running = true ↔
          (reachEvents h (startGame "survival" d now s) as : ℤ)
            + (midFrameEvents h inp k (run h (startGame "survival" d now s) as) : ℤ)
            < 3 + d) ∧
        ((midFrame h inp k (run h (startGame "survival" d now s) as)).running = false →
          Contains (midFrame h inp k (run h (startGame "survival" d now s) as)).message
            "You were overwhelmed!")) := by
  have hstart := survivalInv_start s d now hd
  have hrun := survivalInv_run h d as 0 _ hstart hplay
  rw [Nat.zero_add] at hrun
  refine ⟨hstart.2.1.trans (by simp), ?_, hrun.2.1, hrun.2.2.1, ?_, ?_⟩
  · intro dt idleNow r i t hn hget hreach
    have hr : reachesAt h r i = true := by simp [reachesAt, hget, hreach]
    refine ⟨?_, ((updateTargetsBody_round h dt idleNow i r).2 hr).1⟩
    simp only [reaches, Bool.and_eq_true, decide_eq_true_eq] at hreach
    rw [← destroyTarget_targets t r hn]
    unfold updateTargetsBody
    rw [hget]
    dsimp only
    rw [if_pos hreach.1, if_pos hreach.2]
    split_ifs <;> simp [endGame]
  · intro hstop
    rw [hrun.2.2.2 hstop]
    exact endMessage_contains _ _
  · intro inp k hr
    have hmid := survivalInv_midFrame h inp k d _ _ hrun hr
    refine ⟨?_, ?_, ?_⟩
    · rw [hmid.2.1]
      push_cast
      ring
    · rw [hmid.2.2.1]
      push_cast
      rfl
    · intro hstop
      rw [hmid.2.2.2 hstop]
      exact endMessage_contains _ _

/-! ### Timed rounds -/

theorem destroyTarget_mem (t u : Target) (s : State) (hu : u ∈ (destroyTarget t s).targets) :
    u ∈ s.targets := by
  unfold destroyTarget at hu
  split at hu
  · exact List.mem_of_mem_eraseIdx hu
  · exact hu

theorem despawnIfFar_mem (h : Host) (t u : Target) (s : State)
    (hu : u ∈ (despawnIfFar h t s).targets) : u ∈ s.targets := by
  unfold despawnIfFar at hu
  split_ifs at hu
  · exact destroyTarget_mem t u s hu
  · exact hu

theorem updateTargetsBody_types (h : Host) (dt : ℚ) (idleNow : Nat → ℚ) (i : Nat) (s : State)
    (u : Target) (hu : u ∈ (updateTargetsBody h dt idleNow i s).targets) :
    ∃ v ∈ s.targets, v.type = u.type := by
  unfold updateTargetsBody at hu
  cases hget : s.targets[i]? with
  | none =>
    rw [hget] at hu
    exact ⟨u, hu, rfl⟩
  | some t =>
    have ht : t ∈ s.targets := List.getElem?_mem hget
    rw [hget] at hu
    dsimp only at hu
    split_ifs at hu
    · exact ⟨u, destroyTarget_mem t u s (by simpa [endGame] using hu), rfl⟩
    · exact ⟨u, destroyTarget_mem t u s (by simpa using hu), rfl⟩
    · have hm := despawnIfFar_mem h _ u _ hu
      rcases List.mem_or_eq_of_mem_set hm with hm1 | hm1
      · exact ⟨u, hm1, rfl⟩
      · exact ⟨t, ht, by rw [hm1]⟩
    · have hm := despawnIfFar_mem h _ u _ hu
      rcases List.mem_or_eq_of_mem_set hm with hm1 | hm1
      · exact ⟨u, hm1, rfl⟩
      · exact ⟨t, ht, by rw [hm1]⟩

theorem reachesAt_of_allStatic (h : Host) (s : State) (i : Nat) (hs : AllStatic s) :
    reachesAt h s i = false := by
  unfold reachesAt
  cases hget : s.targets[i]? with
  | none => rfl
  | some t =>
    have ht : t ∈ s.targets := List.getElem?_mem hget
    simp [reaches, hs t ht]

theorem updateTargetsFirst_allStatic (h : Host) (dt : ℚ) (idleNow : Nat → ℚ) (k n : Nat)
    (s : State) (hs : AllStatic s) :
    reachEventsFirst h dt idleNow k n s = 0 ∧
    AllStatic (updateTargetsFirst h dt idleNow k n s) := by
  induction k generalizing n s with
  | zero => exact ⟨rfl, hs⟩
  | succ k ih =>
    cases n with
    | zero => exact ⟨rfl, hs⟩
    | succ n =>
      have hb : AllStatic (updateTargetsBody h dt idleNow n s) := by
        intro u hu
        obtain ⟨v, hv, hty⟩ := updateTargetsBody_types h dt idleNow n s u hu
        rw [← hty]
        exact hs v hv
      obtain ⟨e, a⟩ := ih n _ hb
      rw [updateTargetsFirst, reachEventsFirst, e, reachesAt_of_allStatic h s n hs]
      exact ⟨rfl, a⟩

theorem spawnStep_allStatic (h : Host) (inp : FrameInput) (s : State) (hs : AllStatic s)
    (hmode : s.mode ≠ "survival") : AllStatic (spawnStep h inp s) := by
  unfold spawnStep
  split_ifs
  · obtain ⟨fresh, h1, _, h3, _⟩ :=
      spawnLoop_spec h inp.draws 0 s.difficulty.toNat { s with lastSpawn := inp.now }
    intro t ht
    rw [h1] at ht
    rcases List.mem_append.mp ht with hm | hm
    · exact hs t hm
    · cases hty : t.type with
      | static => rfl
      | moving => exact absurd (h3 t hm hty) hmode
  · exact hs

theorem timedRunning_animate (h : Host) (inp : FrameInput) (t : ℚ) (s : State)
    (hinv : TimedRunning t s) :
    (0 < roundDouble (t - inp.dt) →
      TimedRunning (roundDouble (t - inp.dt)) (animate h inp s)) ∧
    (roundDouble (t - inp.dt) ≤ 0 →
      (animate h inp s).running = false ∧
      (animate h inp s).message = endMessage "Time up!" 0 ∧
      (animate h inp s).score = 0) := by
  obtain ⟨hmode, hstatic, hscore, hrun, htimer⟩ := hinv
  obtain ⟨s1, _, s3, _, s5, s6⟩ := spawnStep_sameRound h inp s
  have hst1 : AllStatic (spawnStep h inp s) :=
    spawnStep_allStatic h inp s hstatic (by rw [hmode]; decide)
  have hst2 : AllStatic (timerStep inp.dt (spawnStep h inp s)) := by
    unfold timerStep
    dsimp only
    split_ifs <;> exact hst1
  obtain ⟨e0, hst3⟩ := updateTargetsFirst_allStatic h inp.dt inp.idleNow
    (timerStep inp.dt (spawnStep h inp s)).targets.length
    (timerStep inp.dt (spawnStep h inp s)).targets.length _ hst2
  obtain ⟨_, p2, p3, p4, _, _, _, p8⟩ := updateTargetsFirst_round h inp.dt inp.idleNow
    (timerStep inp.dt (spawnStep h inp s)).targets.length
    (timerStep inp.dt (spawnStep h inp s)).targets.length
    (timerStep inp.dt (spawnStep h inp s))
  rw [e0] at p8
  obtain ⟨p8r, p8m⟩ := p8 (by simp)
  obtain ⟨m1, _, m3, m4, m5, m6, m7⟩ := updateMovement_keeps h inp
    (midFrame h inp (timerStep inp.dt (spawnStep h inp s)).targets.length s)
  have hm : (spawnStep h inp s).mode = "timed" := s1.trans hmode
  have hsc : (spawnStep h inp s).score = 0 := s5.trans hscore
  have htm : roundDouble ((spawnStep h inp s).timer - inp.dt) = roundDouble (t - inp.dt) := by
    rw [s6, htimer]
  have ht : (timerStep inp.dt (spawnStep h inp s)).mode = "timed" ∧
      (timerStep inp.dt (spawnStep h inp s)).score = 0 ∧
      (timerStep inp.dt (spawnStep h inp s)).timer = roundDouble (t - inp.dt) ∧
      (0 < roundDouble (t - inp.dt) →
        (timerStep inp.dt (spawnStep h inp s)).running = true) ∧
      (roundDouble (t - inp.dt) ≤ 0 →
        (timerStep inp.dt (spawnStep h inp s)).running = false ∧
        (timerStep inp.dt (spawnStep h inp s)).message = endMessage "Time up!" 0) := by
    unfold timerStep
    rw [if_pos hm]
    dsimp only
    rw [htm]
    split_ifs with hle
    · refine ⟨hm, hsc, rfl, ?_, ?_⟩
      · intro hc
        exact absurd hle (not_le.mpr hc)
      · intro _
        simp [endGame, hsc]
    · refine ⟨hm, hsc, rfl, ?_, ?_⟩
      · intro _
        exact s3.trans hrun
      · intro hc
        exact absurd hc hle
  obtain ⟨t1, t2, t3, t4, t5⟩ := ht
  rw [animate_running h inp s hrun]
  constructor
  · intro hpos
    unfold TimedRunning AllStatic
    rw [m1, m3, m5, m6, m7]
    unfold midFrame
    rw [p2, p3, p4, p8r]
    exact ⟨t1, hst3, t2, t4 hpos, t3⟩
  · intro hle
    rw [m3, m4, m5]
    unfold midFrame
    rw [p3, p8r, p8m]
    exact ⟨(t5 hle).1, (t5 hle).2, t2⟩

theorem timedRunning_run (h : Host) (ins : List FrameInput) (t : ℚ) (s : State)
    (hinv : TimedRunning t s) (hpos : staysPositive t ins) :
    TimedRunning (countdown t ins) (run h s (frames ins)) := by
  induction ins generalizing t s with
  | nil => exact hinv
  | cons inp ins ih =>
    obtain ⟨hp1, hp2⟩ := hpos
    exact ih (roundDouble (t - inp.dt)) (animate h inp s)
      ((timedRunning_animate h inp t s hinv).1 hp1) hp2

theorem timedRunning_start (s : State) (d : Int) (now : ℚ) :
    TimedRunning 60 (startGame "timed" d now s) := by
  refine ⟨?_, ?_, ?_, ?_, ?_⟩
  · simp [startGame]
  · intro t ht
    simp [startGame] at ht
  · simp [startGame]
  · simp [startGame]
  · simp [startGame]

theorem countdown_append (t : ℚ) (ins : List FrameInput) (last : FrameInput) :
    countdown t (ins ++ [last]) = roundDouble (countdown t ins - last.dt) := by
  induction ins generalizing t with
  | nil => rfl
  | cons inp ins ih => exact ih (roundDouble (t - inp.dt))

theorem run_frames_append (h : Host) (s : State) (ins : List FrameInput) (last : FrameInput) :
    run h s (frames (ins ++ [last])) = animate h last (run h s (frames ins)) := by
  simp [run, frames, List.foldl_append, step]

/-! ### Doubles on explicit inputs -/

theorem doubleExponent_eq (q : ℚ) (e : ℤ) (he : -1022 ≤ e) (hlo : (2 : ℚ) ^ e ≤ |q|)
    (hhi : |q| < (2 : ℚ) ^ (e + 1)) : doubleExponent q = e := by
  have hpos : 0 < |q| := lt_of_lt_of_le (by positivity) hlo
  have h1 : e ≤ Int.log 2 |q| :=
    (Int.zpow_le_iff_le_log (by norm_num) hpos).mp (by exact_mod_cast hlo)
  have h2 : Int.log 2 |q| < e + 1 :=
    (Int.lt_zpow_iff_log_lt (by norm_num) hpos).mp (by exact_mod_cast hhi)
  unfold doubleExponent
  rw [max_eq_left (by omega)]
  omega

theorem roundHalfEven_exact (n : ℤ) : roundHalfEven (n : ℚ) = n := by
  unfold roundHalfEven
  simp

theorem roundHalfEven_tie_odd (n : ℤ) (hodd : n % 2 = 1) :
    roundHalfEven ((n : ℚ) + 1 / 2) = n + 1 := by
  have hf : ⌊(n : ℚ) + 1 / 2⌋ = n := by
    rw [Int.floor_eq_iff]
    constructor <;> norm_num
  unfold roundHalfEven
  rw [hf]
  have h1 : ¬ ((n : ℚ) + 1 / 2 - n < 1 / 2) := by norm_num
  have h2 : ¬ ((1 : ℚ) / 2 < (n : ℚ) + 1 / 2 - n) := by norm_num
  rw [if_neg h1, if_neg h2, if_neg (by omega)]

theorem roundDouble_zero : roundDouble 0 = 0 := by
  simp [roundDouble, roundHalfEven]

theorem roundDouble_thirty : roundDouble 30 = 30 := by
  have he : doubleExponent (30 : ℚ) = 4 :=
    doubleExponent_eq _ 4 (by norm_num) (by norm_num [abs_of_pos]) (by norm_num [abs_of_pos])
  unfold roundDouble
  rw [he]
  have hx : (30 : ℚ) / 2 ^ ((4 : ℤ) - 52) = ((8444249301319680 : ℤ) : ℚ) := by norm_num
  rw [hx, roundHalfEven_exact]
  norm_num

theorem roundDouble_slow_first :
    roundDouble (60 - 5631751334026805 / 281474976710656)
      = 2814186817153139 / 70368744177664 := by
  have he : doubleExponent (60 - 5631751334026805 / 281474976710656 : ℚ) = 5 :=
    doubleExponent_eq _ 5 (by norm_num) (by norm_num [abs_of_pos]) (by norm_num [abs_of_pos])
  unfold roundDouble
  rw [he]
  have hx : ((60 : ℚ) - 5631751334026805 / 281474976710656) / 2 ^ ((5 : ℤ) - 52)
      = ((5628373634306277 : ℤ) : ℚ) + 1 / 2 := by norm_num
  rw [hx, roundHalfEven_tie_odd _ (by norm_num)]
  norm_num

theorem roundDouble_slow_second :
    roundDouble (2814186817153139 / 70368744177664 - 5631751334026805 / 281474976710656)
      = 5624995934585751 / 281474976710656 := by
  have he : doubleExponent
      (2814186817153139 / 70368744177664 - 5631751334026805 / 281474976710656 : ℚ) = 4 :=
    doubleExponent_eq _ 4 (by norm_num) (by norm_num [abs_of_pos]) (by norm_num [abs_of_pos])
  unfold roundDouble
  rw [he]
  have hx : ((2814186817153139 : ℚ) / 70368744177664 - 5631751334026805 / 281474976710656)
      / 2 ^ ((4 : ℤ) - 52) = ((5624995934585751 : ℤ) : ℚ) := by norm_num
  rw [hx, roundHalfEven_exact]
  norm_num

theorem roundDouble_slow_third :
    roundDouble (5624995934585751 / 281474976710656 - 2812497967292875 / 140737488355328)
      = 1 / 281474976710656 := by
  have he : doubleExponent
      (5624995934585751 / 281474976710656 - 2812497967292875 / 140737488355328 : ℚ)
      = -48 :=
    doubleExponent_eq _ (-48) (by norm_num) (by norm_num [abs_of_pos])
      (by norm_num [abs_of_pos])
  unfold roundDouble
  rw [he]
  have hx : ((5624995934585751 : ℚ) / 281474976710656 - 2812497967292875 / 140737488355328)
      / 2 ^ ((-48 : ℤ) - 52) = ((4503599627370496 : ℤ) : ℚ) := by norm_num
  rw [hx, roundHalfEven_exact]
  norm_num

/-- C3, as stated, fails: the three frames of `slowFrames` have non-negative `dt` whose sum
is below 60 after the second frame and exactly 60 after the third, and yet the timed round
is still running after the third frame, because the countdown rounds `60 - dt` upwards in
the first frame and ends at `2 ^ (-48)`, above 0. -/
theorem timed_round_outlives_sixty_counterexample :
    (∀ inp ∈ slowFrames, 0 ≤ inp.dt) ∧
    elapsed (slowFrames.take 2) < 60 ∧
    elapsed slowFrames = 60 ∧
    countdown 60 slowFrames = 1 / 281474976710656 ∧
    (run sampleHost (startGame "timed" 1 0 init) (frames slowFrames)).running = true := by
  have hc : countdown 60 slowFrames = 1 / 281474976710656 := by
    simp only [countdown, slowFrames, frameAt, roundDouble_slow_first, roundDouble_slow_second,
      roundDouble_slow_third]
  have hp : staysPositive 60 slowFrames := by
    simp only [staysPositive, slowFrames, frameAt, roundDouble_slow_first,
      roundDouble_slow_second, roundDouble_slow_third]
    norm_num
  refine ⟨?_, ?_, ?_, hc, ?_⟩
  · intro inp hinp
    simp only [slowFrames, List.mem_cons, List.mem_singleton, List.not_mem_nil, or_false]
      at hinp
    rcases hinp with rfl | rfl | rfl <;> norm_num [frameAt]
  · norm_num [elapsed, slowFrames, frameAt]
  · norm_num [elapsed, slowFrames, frameAt]
  · exact (timedRunning_run sampleHost slowFrames 60 _ (timedRunning_start init 1 0) hp).2.2.2.1

/-- C3, amended: a round started in timed mode has `timer = 60`; under frames and no other
action it is still running, with score 0, after every frame up to which the timer, from
which each frame subtracts its `dt` in double arithmetic as line 209 does, has stayed above
0, and after the first frame at which that timer is 0 or less it is ended, with a message
that contains "Time up!" and with score 0. -/
theorem timed_round_ends_when_timer_runs_out (h : Host) (s : State) (d : Int) (now : ℚ)
    (ins : List FrameInput) (last : FrameInput) :
    (startGame "timed" d now s).timer = 60 ∧
    (staysPositive 60 ins →
      (run h (startGame "timed" d now s) (frames ins)).running = true ∧
      (run h (startGame "timed" d now s) (frames ins)).score = 0 ∧
      (run h (startGame "timed" d now s) (frames ins)).timer = countdown 60 ins) ∧
    (staysPositive 60 ins → countdown 60 (ins ++ [last]) ≤ 0 →
      (run h (startGame "timed" d now s) (frames (ins ++ [last]))).running = false ∧
      Contains (run h (startGame "timed" d now s) (frames (ins ++ [last]))).message "Time up!" ∧
      (run h (startGame "timed" d now s) (frames (ins ++ [last]))).message
        = endMessage "Time up!" 0 ∧
      (run h (startGame "timed" d now s) (frames (ins ++ [last]))).score = 0) := by
  have hstart := timedRunning_start s d now
  refine ⟨hstart.2.2.2.2, ?_, ?_⟩
  · intro hpos
    have hrun := timedRunning_run h ins 60 _ hstart hpos
    exact ⟨hrun.2.2.2.1, hrun.2.2.1, hrun.2.2.2.2⟩
  · intro hpos hle
    have hrun := timedRunning_run h ins 60 _ hstart hpos
    rw [countdown_append] at hle
    obtain ⟨e1, e2, e3⟩ := (timedRunning_animate h last _ _ hrun).2 hle
    rw [run_frames_append]
    refine ⟨e1, ?_, e2, e3⟩
    rw [e2]
    exact endMessage_contains _ _

/-- Witness of C3, amended: the timed round of difficulty 1 started from the initial state,
and two frames of 30 seconds each; the timer is 30 after the first and 0 after the second. -/
theorem timed_round_ends_when_timer_runs_out_witness :
    (run sampleHost (startGame "timed" 1 0 init)
      (frames ([frameAt 30 30000] ++ [frameAt 30 60000]))).running = false ∧
    Contains (run sampleHost (startGame "timed" 1 0 init)
      (frames ([frameAt 30 30000] ++ [frameAt 30 60000]))).message "Time up!" ∧
    (run sampleHost (startGame "timed" 1 0 init)
      (frames ([frameAt 30 30000] ++ [frameAt 30 60000]))).message = endMessage "Time up!" 0 ∧
    (run sampleHost (startGame "timed" 1 0 init)
      (frames ([frameAt 30 30000] ++ [frameAt 30 60000]))).score = 0 :=
  (timed_round_ends_when_timer_runs_out sampleHost init 1 0 [frameAt 30 30000]
    (frameAt 30 60000)).2.2
    (by
      have h30 : roundDouble (60 - 30) = 30 := by
        rw [show (60 : ℚ) - 30 = 30 by norm_num]
        exact roundDouble_thirty
      simp only [staysPositive, frameAt, h30]
      norm_num)
    (by
      have h30 : roundDouble (60 - 30) = 30 := by
        rw [show (60 : ℚ) - 30 = 30 by norm_num]
        exact roundDouble_thirty
      simp only [countdown, List.cons_append, List.nil_append, frameAt, h30, sub_self,
        roundDouble_zero]
      norm_num)

/-! ### The registry after `updateTargets` -/

theorem tickTarget_id (h : Host) (dt : ℚ) (idleNow : Nat → ℚ) (cam : Vector3) (i : Nat)
    (t u : Target) (hu : tickTarget h dt idleNow cam i t = some u) : u.id = t.id := by
  unfold tickTarget at hu
  split_ifs at hu
  simp only [Option.some.injEq] at hu
  rw [← hu]
  unfold moved
  split_ifs <;> rfl

theorem tickTarget_ids_sublist (h : Host) (dt : ℚ) (idleNow : Nat → ℚ) (cam : Vector3) (i : Nat)
    (t : Target) :
    ((tickTarget h dt idleNow cam i t).toList.map Target.id).Sublist [t.id] := by
  cases hu : tickTarget h dt idleNow cam i t with
  | none => simp
  | some u => simp [tickTarget_id h dt idleNow cam i t u hu]

theorem survivors_append (h : Host) (dt : ℚ) (idleNow : Nat → ℚ) (cam : Vector3) (i : Nat)
    (l : List Target) (t : Target) :
    survivors h dt idleNow cam i (l ++ [t])
      = survivors h dt idleNow cam i l ++ (tickTarget h dt idleNow cam (i + l.length) t).toList := by
  induction l generalizing i with
  | nil => simp [survivors]
  | cons a l ih =>
    show survivors h dt idleNow cam i (a :: (l ++ [t])) = _
    rw [survivors, survivors, ih (i + 1), List.length_cons, List.append_assoc,
      show i + 1 + l.length = i + (l.length + 1) by omega]

theorem updateTargetsLoop_closed (h : Host) (dt : ℚ) (idleNow : Nat → ℚ) (n : Nat) :
    ∀ (pre post : List Target) (s : State), pre.length = n → s.targets = pre ++ post →
      ((pre ++ post).map Target.id).Nodup →
      (updateTargetsLoop h dt idleNow n s).targets = survivors h dt idleNow s.camera 0 pre ++ post ∧
      reachEventsFirst h dt idleNow n n s = pre.countP (reaches h s.camera) := by
  induction n with
  | zero =>
    intro pre post s hlen hs _
    have hpre : pre = [] := List.length_eq_zero.mp hlen
    subst hpre
    simp [updateTargetsLoop, survivors, reachEventsFirst, hs]
  | succ n ih =>
    intro pre post s hlen hs hn
    rcases List.eq_nil_or_concat pre with hnil | ⟨front, t, hcat⟩
    · rw [hnil] at hlen
      simp at hlen
    · rw [List.concat_eq_append] at hcat
      subst hcat
      have hfl : front.length = n := by simpa using hlen
      have hs1 : s.targets = front ++ t :: post := by simp [hs]
      have hn1 : ((front ++ t :: post).map Target.id).Nodup := by
        simpa using hn
      have hfront : ∀ v ∈ front, v.id ≠ t.id := by
        intro v hv hc
        rw [List.map_append, List.nodup_append] at hn1
        exact hn1.2.2 (List.mem_map.mpr ⟨v, hv, rfl⟩)
          (List.mem_map.mpr ⟨t, List.mem_cons_self _ _, hc.symm⟩)
      have hbody := updateTargetsBody_at h dt idleNow front post t s hs1 hfront
      rw [hfl] at hbody
      have hcam := (updateTargetsBody_keeps h dt idleNow n s).2.2.1
      have hn2 : ((front ++ ((tickTarget h dt idleNow s.camera n t).toList ++ post)).map
          Target.id).Nodup := by
        refine List.Nodup.sublist ?_ hn1
        simp only [List.map_append, List.map_cons]
        refine List.Sublist.append (List.Sublist.refl _) ?_
        have hsub := tickTarget_ids_sublist h dt idleNow s.camera n t
        have := List.Sublist.append hsub (List.Sublist.refl (post.map Target.id))
        simpa using this
      obtain ⟨i1, i2⟩ := ih front ((tickTarget h dt idleNow s.camera n t).toList ++ post)
        (updateTargetsBody h dt idleNow n s) hfl hbody hn2
      have hreach : reachesAt h s n = reaches h s.camera t := by
        unfold reachesAt
        rw [hs1, List.getElem?_append_right (by omega)]
        simp [hfl]
      constructor
      · rw [updateTargetsLoop, i1, hcam, survivors_append, hfl]
        simp
      · rw [reachEventsFirst, i2, hcam, hreach, List.countP_append]
        simp only [List.countP_cons, List.countP_nil]
        omega

theorem updateTargets_closed (h : Host) (dt : ℚ) (idleNow : Nat → ℚ) (s : State)
    (hn : (s.targets.map Target.id).Nodup) :
    (updateTargets h dt idleNow s).targets = survivors h dt idleNow s.camera 0 s.targets ∧
    (updateTargets h dt idleNow s).lives
      = s.lives - (s.targets.countP (reaches h s.camera) : ℤ) ∧
    (updateTargets h dt idleNow s).score = s.score ∧
    (updateTargets h dt idleNow s).camera = s.camera := by
  obtain ⟨c1, c2⟩ := updateTargetsLoop_closed h dt idleNow s.targets.length s.targets [] s rfl
    (by simp) (by simpa using hn)
  obtain ⟨p1, _, p3, _, p5, _⟩ :=
    updateTargetsFirst_round h dt idleNow s.targets.length s.targets.length s
  unfold updateTargets
  refine ⟨by simpa using c1, ?_, ?_, ?_⟩
  · rw [updateTargetsLoop_eq_first, p1, c2]
  · rw [updateTargetsLoop_eq_first, p3]
  · rw [updateTargetsLoop_eq_first, p5]

theorem survivors_origin (h : Host) (dt : ℚ) (idleNow : Nat → ℚ) (cam : Vector3) (i : Nat)
    (l : List Target) (u : Target) (hu : u ∈ survivors h dt idleNow cam i l) :
    ∃ a ∈ l, a.id = u.id := by
  induction l generalizing i with
  | nil => simp [survivors] at hu
  | cons a l ih =>
    rw [survivors, List.mem_append] at hu
    rcases hu with hu | hu
    · have : tickTarget h dt idleNow cam i a = some u := by
        cases ht : tickTarget h dt idleNow cam i a with
        | none => simp [ht] at hu
        | some v =>
          simp only [ht, Option.toList_some, List.mem_singleton] at hu
          rw [hu]
      exact ⟨a, List.mem_cons_self _ _, (tickTarget_id h dt idleNow cam i a u this).symm⟩
    · obtain ⟨b, hb, hid⟩ := ih (i + 1) hu
      exact ⟨b, List.mem_cons_of_mem _ hb, hid⟩

theorem survivors_of_id (h : Host) (dt : ℚ) (idleNow : Nat → ℚ) (cam : Vector3) (i j : Nat)
    (l : List Target) (t u : Target) (hn : (l.map Target.id).Nodup) (hget : l[j]? = some t)
    (hu : u ∈ survivors h dt idleNow cam i l) (hid : u.id = t.id) :
    tickTarget h dt idleNow cam (i + j) t = some u := by
  induction l generalizing i j with
  | nil => simp at hget
  | cons a l ih =>
    rw [List.map_cons, List.nodup_cons] at hn
    rw [survivors, List.mem_append] at hu
    cases j with
    | zero =>
      simp only [List.getElem?_cons_zero, Option.some.injEq] at hget
      subst hget
      rcases hu with hu | hu
      · cases ht : tickTarget h dt idleNow cam i a with
        | none => simp [ht] at hu
        | some v =>
          simp only [ht, Option.toList_some, List.mem_singleton] at hu
          rw [hu]
          simpa using ht
      · obtain ⟨b, hb, hbid⟩ := survivors_origin h dt idleNow cam (i + 1) l u hu
        exact absurd (List.mem_map.mpr ⟨b, hb, hbid.trans hid⟩) hn.1
    | succ j =>
      simp only [List.getElem?_cons_succ] at hget
      rcases hu with hu | hu
      · have hua : u.id = a.id := by
          cases ht : tickTarget h dt idleNow cam i a with
          | none => simp [ht] at hu
          | some v =>
            simp only [ht, Option.toList_some, List.mem_singleton] at hu
            rw [hu]
            exact tickTarget_id h dt idleNow cam i a v ht
        have htl : t ∈ l := List.getElem?_mem hget
        exact absurd (List.mem_map.mpr ⟨t, htl, hid.symm.trans hua⟩) hn.1
      · have := ih (i + 1) j hn.2 hget hu
        rw [show i + (j + 1) = i + 1 + j by omega]
        exact this

theorem survivors_mem (h : Host) (dt : ℚ) (idleNow : Nat → ℚ) (cam : Vector3) (i j : Nat)
    (l : List Target) (t u : Target) (hget : l[j]? = some t)
    (hu : tickTarget h dt idleNow cam (i + j) t = some u) :
    u ∈ survivors h dt idleNow cam i l := by
  induction l generalizing i j with
  | nil => simp at hget
  | cons a l ih =>
    rw [survivors, List.mem_append]
    cases j with
    | zero =>
      simp only [List.getElem?_cons_zero, Option.some.injEq] at hget
      subst hget
      left
      simp only [Nat.add_zero] at hu
      simp [hu]
    | succ j =>
      simp only [List.getElem?_cons_succ] at hget
      right
      apply ih (i + 1) j hget
      rw [show i + 1 + j = i + (j + 1) by omega]
      exact hu

/-! ### Evaluations on explicit inputs -/

theorem ratSqrt_values :
    ratSqrt 63001 = 251 ∧ ratSqrt 62001 = 249 ∧ ratSqrt 4 = 2 ∧ ratSqrt 1 = 1 ∧
    ratSqrt (169 / 100) = 13 / 10 := by
  have h1 := ratSqrt_mul_self 251 (by norm_num)
  have h2 := ratSqrt_mul_self 249 (by norm_num)
  have h3 := ratSqrt_mul_self 2 (by norm_num)
  have h4 := ratSqrt_mul_self 1 (by norm_num)
  have h5 := ratSqrt_mul_self (13 / 10) (by norm_num)
  norm_num at h1 h2 h3 h4 h5
  exact ⟨h1, h2, h3, h4, h5⟩

/-- C7, as stated, fails: `farTarget` is at distance 251 from the camera when the tick
begins, and after a tick with `dt = 2` it is still in the registry, at distance 249. -/
theorem far_target_stays_counterexample :
    farTarget.position.distanceTo sampleHost farRound.camera = 251 ∧
    (updateTargets sampleHost 2 (fun _ => 0) farRound).targets
      = [{ farTarget with position := ⟨0, 8 / 5, -244⟩ }] := by
  obtain ⟨h1, h2, h3, h4, h5⟩ := ratSqrt_values
  constructor
  · norm_num [Vector3.distanceTo, Vector3.distanceToSquared, farTarget, farRound, init,
      sampleHost, h1]
  · norm_num [updateTargets, updateTargetsLoop, updateTargetsBody, despawnIfFar, farRound,
      farTarget, init, sampleHost, Vector3.subVectors, Vector3.length, Vector3.normalize,
      Vector3.divideScalar, Vector3.multiplyScalar, Vector3.addScaledVector,
      Vector3.distanceTo, Vector3.distanceToSquared, h1, h2]

/-- C10: on `lastLifeRound` the click that hits `closeTarget` scores, but the target stays in
the registry until the delayed callback runs; the frame in between finds it closer than 1.4,
takes the last life and ends the round.  With the removal done at the hit, the same actions
leave the life and the round running. -/
theorem delayed_removal_changes_outcome :
    (run sampleHost lastLifeRound hitThenFrame).score = 1 ∧
    (run sampleHost lastLifeRound hitThenFrame).lives = 0 ∧
    (run sampleHost lastLifeRound hitThenFrame).running = false ∧
    (runImmediate sampleHost lastLifeRound hitThenFrame).score = 1 ∧
    (runImmediate sampleHost lastLifeRound hitThenFrame).lives = 1 ∧
    (runImmediate sampleHost lastLifeRound hitThenFrame).running = true := by
  obtain ⟨h1, h2, h3, h4, h5⟩ := ratSqrt_values
  have hm : ¬ (("survival" : String) = "timed") := by decide
  norm_num [hm, run, runImmediate, hitThenFrame, step, stepImmediate, mousedown, shoot,
    shootImmediate, timeoutFires, animate, spawnStep, spawnDue, timerStep, updateTargets,
    updateTargetsLoop, updateTargetsBody, updateMovement, moveVector, Vector3.lengthSq,
    destroyTarget, endGame, lastLifeRound, closeTarget, init, frameAt, sampleHost,
    Vector3.subVectors, Vector3.length, h5]

/-- Witness of C5: the spawn step of `spawnRound` at a frame at time 600, past the
interval `1700 / 3`. -/
theorem spawnStep_adds_difficulty_many_witness :
    ∃ fresh : List Target,
      (spawnStep sampleHost (frameAt (1 / 60) 600) spawnRound).targets
        = spawnRound.targets ++ fresh ∧
      (fresh.length : Int) = spawnRound.difficulty ∧
      (spawnStep sampleHost (frameAt (1 / 60) 600) spawnRound).lastSpawn
        = (frameAt (1 / 60) 600).now ∧
      (∀ t ∈ fresh, t.type = TargetType.moving → spawnRound.mode = "survival") ∧
      (spawnRound.mode = "practice" ∨ spawnRound.mode = "timed" →
        ∀ t ∈ fresh, t.type = TargetType.static) :=
  (spawnStep_adds_difficulty_many sampleHost (frameAt (1 / 60) 600) spawnRound (1700 / 3)
    (by decide) rfl).1 (by norm_num [frameAt, spawnRound, init])

/-- C7, amended: the far-despawn test of a tick is applied to the position that the target
has after the motion of that same tick (the advance of a `moving` target, the idle float of
a `static` one).  In a registry of distinct targets, a target that does not reach the player
in the tick is still in the registry afterwards when its distance to the camera after that
motion is 250 or less, and is removed by the tick when that distance is more than 250, for
instance 251; the tick leaves the score alone and lowers the lives only by the number of
targets that reach the player. -/
theorem far_despawn_after_motion (h : Host) (dt : ℚ) (idleNow : Nat → ℚ) (s : State) (i : Nat)
    (t : Target) (hn : (s.targets.map Target.id).Nodup) (hget : s.targets[i]? = some t)
    (hnot : reaches h s.camera t = false) :
    ((moved h dt idleNow s.camera i t).position.distanceTo h s.camera ≤ 250 →
      moved h dt idleNow s.camera i t ∈ (updateTargets h dt idleNow s).targets) ∧
    (250 < (moved h dt idleNow s.camera i t).position.distanceTo h s.camera →
      ∀ u ∈ (updateTargets h dt idleNow s).targets, u.id ≠ t.id) ∧
    (updateTargets h dt idleNow s).score = s.score ∧
    (updateTargets h dt idleNow s).lives
      = s.lives - (s.targets.countP (reaches h s.camera) : ℤ) := by
  obtain ⟨c1, c2, c3, _⟩ := updateTargets_closed h dt idleNow s hn
  refine ⟨?_, ?_, c3, c2⟩
  · intro hle
    rw [c1]
    apply survivors_mem h dt idleNow s.camera 0 i s.targets t _ hget
    rw [Nat.zero_add]
    unfold tickTarget
    rw [hnot, if_neg (not_lt.mpr hle)]
    simp
  · intro hgt u hu hid
    rw [c1] at hu
    have hsome := survivors_of_id h dt idleNow s.camera 0 i s.targets t u hn hget hu hid
    rw [Nat.zero_add] at hsome
    unfold tickTarget at hsome
    rw [hnot, if_pos hgt] at hsome
    simp at hsome

/-- Witness of C7, amended: `farTarget` in `farRound` under a tick with `dt = 2`. -/
theorem far_despawn_after_motion_witness :
    moved sampleHost 2 (fun _ => 0) farRound.camera 0 farTarget
      ∈ (updateTargets sampleHost 2 (fun _ => 0) farRound).targets :=
  (far_despawn_after_motion sampleHost 2 (fun _ => 0) farRound 0 farTarget
    (by simp [farRound])
    (by simp [farRound])
    (by
      norm_num [reaches, farRound, farTarget, init, sampleHost, Vector3.subVectors,
        Vector3.length, ratSqrt_values.1])).1
    (by
      norm_num [moved, farRound, farTarget, init, sampleHost, Vector3.subVectors,
        Vector3.length, Vector3.normalize, Vector3.divideScalar, Vector3.multiplyScalar,
        Vector3.addScaledVector, Vector3.distanceTo, Vector3.distanceToSquared,
        ratSqrt_values.1, ratSqrt_values.2.1])

/-- C9, as stated, fails: `nearTarget` is at distance 2 when the tick begins; a tick with
`dt = 1` advances it to distance 1, below 1.4, and yet it is still in the registry and the
lives are unchanged. -/
theorem near_target_stays_counterexample :
    (updateTargets sampleHost 1 (fun _ => 0) nearRound).targets
      = [{ nearTarget with position := ⟨0, 8 / 5, 4⟩ }] ∧
    Vector3.distanceTo sampleHost ⟨0, 8 / 5, 4⟩ nearRound.camera = 1 ∧
    (updateTargets sampleHost 1 (fun _ => 0) nearRound).lives = nearRound.lives := by
  obtain ⟨h1, h2, h3, h4, h5⟩ := ratSqrt_values
  refine ⟨?_, ?_, ?_⟩
  · norm_num [updateTargets, updateTargetsLoop, updateTargetsBody, despawnIfFar, nearRound,
      nearTarget, init, sampleHost, Vector3.subVectors, Vector3.length, Vector3.normalize,
      Vector3.divideScalar, Vector3.multiplyScalar, Vector3.addScaledVector,
      Vector3.distanceTo, Vector3.distanceToSquared, h3, h4]
  · norm_num [Vector3.distanceTo, Vector3.distanceToSquared, nearRound, init, sampleHost, h4]
  · norm_num [updateTargets, updateTargetsLoop, updateTargetsBody, despawnIfFar, nearRound,
      nearTarget, init, sampleHost, Vector3.subVectors, Vector3.length, Vector3.normalize,
      Vector3.divideScalar, Vector3.multiplyScalar, Vector3.addScaledVector,
      Vector3.distanceTo, Vector3.distanceToSquared, h3, h4]

/-- C9, amended: in a registry of distinct targets, a tick removes a `moving` target as
having reached the player exactly when its distance to the camera at the beginning of the
tick, before any advance, is below 1.4, and such a target is not advanced; the lives go down
by 1 for each such target.  Every other `moving` target is advanced by `speed * dt` along the
normalised direction to the camera, and stays in the registry when its distance to the camera
after the advance is at most 250. -/
theorem moving_target_checked_before_advance (h : Host) (dt : ℚ) (idleNow : Nat → ℚ)
    (s : State) (i : Nat) (t : Target) (hn : (s.targets.map Target.id).Nodup)
    (hget : s.targets[i]? = some t) (hty : t.type = TargetType.moving) :
    ((Vector3.subVectors s.camera t.position).length h < 7 / 5 →
      ∀ u ∈ (updateTargets h dt idleNow s).targets, u.id ≠ t.id) ∧
    (¬ (Vector3.subVectors s.camera t.position).length h < 7 / 5 →
      ∀ u ∈ (updateTargets h dt idleNow s).targets, u.id = t.id →
        u.position = t.position.addScaledVector
          ((Vector3.subVectors s.camera t.position).normalize h) (t.speed * dt)) ∧
    (¬ (Vector3.subVectors s.camera t.position).length h < 7 / 5 →
      (t.position.addScaledVector ((Vector3.subVectors s.camera t.position).normalize h)
        (t.speed * dt)).distanceTo h s.camera ≤ 250 →
      ∃ u ∈ (updateTargets h dt idleNow s).targets, u.id = t.id) ∧
    (updateTargets h dt idleNow s).lives
      = s.lives - (s.targets.countP (fun u => decide (u.type = TargetType.moving) &&
          decide ((Vector3.subVectors s.camera u.position).length h < 7 / 5)) : ℤ) := by
  obtain ⟨c1, c2, _, _⟩ := updateTargets_closed h dt idleNow s hn
  have hmoved : (moved h dt idleNow s.camera i t).position
      = t.position.addScaledVector ((Vector3.subVectors s.camera t.position).normalize h)
          (t.speed * dt) := by
    unfold moved
    rw [if_pos hty]
  have hmid : (moved h dt idleNow s.camera i t).id = t.id := by
    unfold moved
    rw [if_pos hty]
  refine ⟨?_, ?_, ?_, ?_⟩
  · intro hnear u hu hid
    rw [c1] at hu
    have hsome := survivors_of_id h dt idleNow s.camera 0 i s.targets t u hn hget hu hid
    have hr : reaches h s.camera t = true := by simp [reaches, hty, hnear]
    unfold tickTarget at hsome
    rw [hr] at hsome
    simp at hsome
  · intro hnear u hu hid
    rw [c1] at hu
    have hsome := survivors_of_id h dt idleNow s.camera 0 i s.targets t u hn hget hu hid
    have hr : reaches h s.camera t = false := by simp [reaches, hty, hnear]
    unfold tickTarget at hsome
    rw [hr, Nat.zero_add] at hsome
    simp only [Bool.false_eq_true, if_false] at hsome
    split_ifs at hsome
    simp only [Option.some.injEq] at hsome
    rw [← hsome, hmoved]
  · intro hnear hle
    have hr : reaches h s.camera t = false := by simp [reaches, hty, hnear]
    refine ⟨moved h dt idleNow s.camera i t, ?_, ?_⟩
    · rw [c1]
      apply survivors_mem h dt idleNow s.camera 0 i s.targets t _ hget
      rw [Nat.zero_add]
      unfold tickTarget
      rw [hr]
      simp only [Bool.false_eq_true, if_false]
      rw [if_neg]
      rw [hmoved]
      exact not_lt.mpr hle
    · exact hmid
  · rw [c2]
    rfl

/-- Witness of C9, amended: `nearTarget` in `nearRound` under a tick with `dt = 1`. -/
theorem moving_target_checked_before_advance_witness :
    ∃ u ∈ (updateTargets sampleHost 1 (fun _ => 0) nearRound).targets, u.id = nearTarget.id :=
  (moving_target_checked_before_advance sampleHost 1 (fun _ => 0) nearRound 0 nearTarget
    (by simp [nearRound]) (by simp [nearRound]) rfl).2.2.1
    (by
      norm_num [nearRound, nearTarget, init, sampleHost, Vector3.subVectors, Vector3.length,
        ratSqrt_values.2.2.1])
    (by
      norm_num [nearRound, nearTarget, init, sampleHost, Vector3.subVectors, Vector3.length,
        Vector3.normalize, Vector3.divideScalar, Vector3.multiplyScalar,
        Vector3.addScaledVector, Vector3.distanceTo, Vector3.distanceToSquared,
        ratSqrt_values.2.2.1, ratSqrt_values.2.2.2.1])

/-! ### A survival round on explicit inputs -/

theorem ratSqrt_36 : ratSqrt 36 = 6 := by
  have h := ratSqrt_mul_self 6 (by norm_num)
  norm_num at h
  exact h

theorem survivalStart_spawn :
    timerStep 5 (spawnStep sampleHost (frameAhead 5 1000) survivalStart) = pairRound (-1) := by
  have hm : ¬ (("survival" : String) = "timed") := by decide
  norm_num [hm, survivalStart, startGame, intervalFor, spawnStep, spawnDue, spawnLoop,
    spawnTarget, rollType, lerp, degToRad, randFloatSpread, randFloat, frameAhead, aheadDraw,
    init, sampleHost, spawnedAhead, pairRound, timerStep]

theorem pairRound_body_one :
    updateTargetsBody sampleHost 5 (fun _ => 1000) 1 (pairRound (-1))
      = { pairRound (-1) with targets := [spawnedAhead 0 (-1), spawnedAhead 1 4] } := by
  have h36 := ratSqrt_36
  have h1 := ratSqrt_values.2.2.2.1
  have hm : ¬ (("survival" : String) = "timed") := by decide
  norm_num [hm, intervalFor, updateTargetsBody, despawnIfFar, pairRound, survivalStart,
    startGame, spawnedAhead, init, sampleHost, Vector3.subVectors, Vector3.length,
    Vector3.normalize, Vector3.divideScalar, Vector3.multiplyScalar, Vector3.addScaledVector,
    Vector3.distanceTo, Vector3.distanceToSquared, h36, h1]

theorem pairRound_body_zero :
    updateTargetsBody sampleHost 5 (fun _ => 1000) 0
        { pairRound (-1) with targets := [spawnedAhead 0 (-1), spawnedAhead 1 4] }
      = pairRound 4 := by
  have h36 := ratSqrt_36
  have h1 := ratSqrt_values.2.2.2.1
  have hm : ¬ (("survival" : String) = "timed") := by decide
  norm_num [hm, intervalFor, updateTargetsBody, despawnIfFar, pairRound, survivalStart,
    startGame, spawnedAhead, init, sampleHost, Vector3.subVectors, Vector3.length,
    Vector3.normalize, Vector3.divideScalar, Vector3.multiplyScalar, Vector3.addScaledVector,
    Vector3.distanceTo, Vector3.distanceToSquared, h36, h1]

theorem survivalStart_frame :
    animate sampleHost (frameAhead 5 1000) survivalStart = pairRound 4 := by
  have hr : survivalStart.running = true := rfl
  have hl : (pairRound (-1)).targets.length = 2 := rfl
  have hk : (pairRound 4).keys = ⟨false, false, false, false⟩ := rfl
  have e1 : (frameAhead 5 1000).dt = 5 := rfl
  have e2 : (frameAhead 5 1000).idleNow = fun _ => 1000 := rfl
  unfold animate
  rw [if_pos hr, e1, e2, survivalStart_spawn, updateTargets, hl, updateTargetsLoop,
    updateTargetsLoop, updateTargetsLoop, pairRound_body_one, pairRound_body_zero]
  unfold updateMovement
  rw [hk]
  norm_num [moveVector, Vector3.lengthSq]

theorem pairRound_no_spawn :
    timerStep (1 / 60) (spawnStep sampleHost (frameAhead (1 / 60) 1016) (pairRound 4))
      = pairRound 4 := by
  have hm : ¬ (("survival" : String) = "timed") := by decide
  norm_num [hm, pairRound, survivalStart, startGame, intervalFor, spawnStep, spawnDue,
    frameAhead, init, timerStep]

theorem frameEvents_closed (h : Host) (inp : FrameInput) (s : State) (hrun : s.running = true)
    (hn : ((timerStep inp.dt (spawnStep h inp s)).targets.map Target.id).Nodup) :
    frameEvents h inp s
      = (timerStep inp.dt (spawnStep h inp s)).targets.countP
          (reaches h (timerStep inp.dt (spawnStep h inp s)).camera) := by
  unfold frameEvents midFrameEvents
  rw [if_pos hrun]
  exact (updateTargetsLoop_closed h inp.dt inp.idleNow _ _ [] _ rfl (by simp)
    (by simpa using hn)).2

theorem twoFrames_events : reachEvents sampleHost survivalStart twoFrames = 2 := by
  have h1 := ratSqrt_values.2.2.2.1
  have h36 := ratSqrt_36
  have hm : ¬ (("survival" : String) = "timed") := by decide
  have f1 : frameEvents sampleHost (frameAhead 5 1000) survivalStart = 0 := by
    rw [frameEvents_closed sampleHost (frameAhead 5 1000) survivalStart rfl]
    · have e1 : (frameAhead 5 1000).dt = 5 := rfl
      rw [e1, survivalStart_spawn]
      norm_num [hm, pairRound, survivalStart, startGame, spawnedAhead, init, reaches,
        sampleHost, Vector3.subVectors, Vector3.length, h36]
    · have e1 : (frameAhead 5 1000).dt = 5 := rfl
      rw [e1, survivalStart_spawn]
      simp [pairRound, spawnedAhead]
  have f2 : frameEvents sampleHost (frameAhead (1 / 60) 1016) (pairRound 4) = 2 := by
    rw [frameEvents_closed sampleHost (frameAhead (1 / 60) 1016) (pairRound 4) rfl]
    · have e1 : (frameAhead (1 / 60) 1016).dt = 1 / 60 := rfl
      rw [e1, pairRound_no_spawn]
      norm_num [hm, pairRound, survivalStart, startGame, spawnedAhead, init, reaches,
        sampleHost, Vector3.subVectors, Vector3.length, h1]
    · have e1 : (frameAhead (1 / 60) 1016).dt = 1 / 60 := rfl
      rw [e1, pairRound_no_spawn]
      simp [pairRound, spawnedAhead]
  simp only [reachEvents, twoFrames, actionEvents, step, survivalStart_frame, f1, f2]

/-- Witness of C4: the survival round of difficulty 2 started from the initial state, and
the two frames of `twoFrames`, in the second of which two targets reach the player: 3 of
the 5 lives are left and the round is running. -/
theorem survival_round_ends_after_all_lives_witness :
    (run sampleHost (startGame "survival" 2 0 init) twoFrames).lives = 3 ∧
    (run sampleHost (startGame "survival" 2 0 init) twoFrames).running = true := by
  have key := survival_round_ends_after_all_lives sampleHost init 2 0 twoFrames (by decide)
    (by simp [twoFrames, Action.isPlay])
  have he : reachEvents sampleHost (startGame "survival" 2 0 init) twoFrames = 2 :=
    twoFrames_events
  obtain ⟨_, _, k3, k4, _, _⟩ := key
  rw [he] at k3 k4
  refine ⟨?_, k4.mpr (by norm_num)⟩
  rw [k3]
  norm_num

/-! ### Distinct targets -/

theorem set_same_id (l : List Target) (i : Nat) (t t1 : Target) (hget : l[i]? = some t)
    (hid : t1.id = t.id) : (l.set i t1).map Target.id = l.map Target.id := by
  induction l generalizing i with
  | nil => simp
  | cons a l ih =>
    cases i with
    | zero =>
      simp only [List.getElem?_cons_zero, Option.some.injEq] at hget
      simp [hid, hget]
    | succ i =>
      simp only [List.getElem?_cons_succ] at hget
      simp [ih i hget]

theorem destroyTarget_ids (t : Target) (s : State) :
    ((destroyTarget t s).targets.map Target.id).Sublist (s.targets.map Target.id) ∧
    (destroyTarget t s).nextId = s.nextId := by
  unfold destroyTarget
  split
  · exact ⟨(List.eraseIdx_sublist _ _).map _, rfl⟩
  · exact ⟨List.Sublist.refl _, rfl⟩

theorem despawnIfFar_ids (h : Host) (t : Target) (s : State) :
    ((despawnIfFar h t s).targets.map Target.id).Sublist (s.targets.map Target.id) ∧
    (despawnIfFar h t s).nextId = s.nextId := by
  unfold despawnIfFar
  split_ifs
  · exact destroyTarget_ids t s
  · exact ⟨List.Sublist.refl _, rfl⟩

theorem updateTargetsBody_ids (h : Host) (dt : ℚ) (idleNow : Nat → ℚ) (i : Nat) (s : State) :
    ((updateTargetsBody h dt idleNow i s).targets.map Target.id).Sublist
      (s.targets.map Target.id) ∧
    (updateTargetsBody h dt idleNow i s).nextId = s.nextId := by
  unfold updateTargetsBody
  cases hget : s.targets[i]? with
  | none => exact ⟨List.Sublist.refl _, rfl⟩
  | some t =>
    have hset : ∀ t1 : Target, t1.id = t.id →
        ((despawnIfFar h t1 { s with targets := s.targets.set i t1 }).targets.map
          Target.id).Sublist (s.targets.map Target.id) ∧
        (despawnIfFar h t1 { s with targets := s.targets.set i t1 }).nextId = s.nextId := by
      intro t1 hid
      have hd := despawnIfFar_ids h t1 { s with targets := s.targets.set i t1 }
      rw [set_same_id s.targets i t t1 hget hid] at hd
      exact hd
    dsimp only
    split_ifs
    · exact destroyTarget_ids t s
    · exact destroyTarget_ids t s
    · exact hset _ rfl
    · exact hset _ rfl

theorem updateTargetsLoop_ids (h : Host) (dt : ℚ) (idleNow : Nat → ℚ) (n : Nat) (s : State) :
    ((updateTargetsLoop h dt idleNow n s).targets.map Target.id).Sublist
      (s.targets.map Target.id) ∧
    (updateTargetsLoop h dt idleNow n s).nextId = s.nextId := by
  induction n generalizing s with
  | zero => exact ⟨List.Sublist.refl _, rfl⟩
  | succ n ih =>
    obtain ⟨b1, b2⟩ := updateTargetsBody_ids h dt idleNow n s
    obtain ⟨i1, i2⟩ := ih (updateTargetsBody h dt idleNow n s)
    rw [updateTargetsLoop]
    exact ⟨i1.trans b1, i2.trans b2⟩

theorem DistinctTargets.of_sublist {s s1 : State} (hs : DistinctTargets s)
    (hsub : (s1.targets.map Target.id).Sublist (s.targets.map Target.id))
    (hnext : s1.nextId = s.nextId) : DistinctTargets s1 := by
  refine ⟨hs.1.sublist hsub, ?_⟩
  intro t ht
  have hm : t.id ∈ s.targets.map Target.id := hsub.subset (List.mem_map.mpr ⟨t, ht, rfl⟩)
  obtain ⟨v, hv, hid⟩ := List.mem_map.mp hm
  rw [hnext, ← hid]
  exact hs.2 v hv

theorem spawnLoop_distinct (h : Host) (draws : Nat → SpawnDraw) (i n : Nat) (s : State)
    (hs : DistinctTargets s) : DistinctTargets (spawnLoop h draws i n s) := by
  obtain ⟨fresh, h1, _, _, h4, h5, _⟩ := spawnLoop_spec h draws i n s
  constructor
  · rw [h1, List.map_append, h4, List.nodup_append]
    refine ⟨hs.1, List.nodup_range' _ _, ?_⟩
    intro a ha hb
    obtain ⟨v, hv, hid⟩ := List.mem_map.mp ha
    have hlt := hs.2 v hv
    rw [List.mem_range'_1] at hb
    omega
  · intro t ht
    rw [h1] at ht
    rw [h5]
    rcases List.mem_append.mp ht with hm | hm
    · have := hs.2 t hm
      omega
    · have hmem : t.id ∈ List.range' s.nextId n := by
        rw [← h4]
        exact List.mem_map.mpr ⟨t, hm, rfl⟩
      rw [List.mem_range'_1] at hmem
      exact hmem.2

theorem animate_distinct (h : Host) (inp : FrameInput) (s : State) (hs : DistinctTargets s) :
    DistinctTargets (animate h inp s) := by
  unfold animate
  split_ifs
  · have h1 : DistinctTargets (spawnStep h inp s) := by
      unfold spawnStep
      split_ifs
      · exact spawnLoop_distinct h inp.draws 0 _ _ hs
      · exact hs
    have h2 : DistinctTargets (timerStep inp.dt (spawnStep h inp s)) := by
      unfold timerStep
      dsimp only
      split_ifs <;> exact h1
    have h3 : DistinctTargets
        (updateTargets h inp.dt inp.idleNow (timerStep inp.dt (spawnStep h inp s))) := by
      obtain ⟨l1, l2⟩ := updateTargetsLoop_ids h inp.dt inp.idleNow
        (timerStep inp.dt (spawnStep h inp s)).targets.length
        (timerStep inp.dt (spawnStep h inp s))
      exact h2.of_sublist l1 l2
    unfold updateMovement
    dsimp only
    split_ifs <;> exact h3
  · exact hs

/-- In every state that the script can reach from its initial state, the targets of the
registry are distinct objects. -/
theorem run_distinct (h : Host) (as : List Action) (s : State) (hs : DistinctTargets s) :
    DistinctTargets (run h s as) := by
  induction as generalizing s with
  | nil => exact hs
  | cons a as ih =>
    apply ih
    cases a with
    | start sel dval now =>
      refine ⟨?_, ?_⟩
      · simp only [step, startGame]
        split_ifs <;> simp
      · intro t ht
        simp only [step, startGame] at ht
        split_ifs at ht <;> simp at ht
    | frame inp => exact animate_distinct h inp s hs
    | mousedown button intersects =>
      simp only [step, mousedown, shoot]
      split_ifs
      · exact hs
      · split <;> exact hs
      · exact hs
    | timeout =>
      simp only [step, timeoutFires]
      split
      · exact hs
      · rename_i hit others hp
        obtain ⟨d1, d2⟩ := destroyTarget_ids hit { s with pending := others }
        exact hs.of_sublist d1 d2
    | keydown code => exact hs
    | keyup code => exact hs
    | modeChange value => exact hs
    | difficultyInput dval => exact hs
    | endGame msg => exact hs

theorem init_distinct : DistinctTargets init := by
  constructor
  · simp [init]
  · intro t ht
    simp [init] at ht

/-! ### The loop index stays in range -/

theorem destroyTarget_length (t : Target) (s : State) :
    s.targets.length ≤ (destroyTarget t s).targets.length + 1 := by
  unfold destroyTarget
  split
  · simp only [List.length_eraseIdx]
    split_ifs <;> omega
  · omega

theorem despawnIfFar_length (h : Host) (t : Target) (s : State) :
    s.targets.length ≤ (despawnIfFar h t s).targets.length + 1 := by
  unfold despawnIfFar
  split_ifs
  · exact destroyTarget_length t s
  · omega

/-- One iteration of the loop of `updateTargets` removes at most one target, so the next
index `i - 1` is again an index of the registry: the read `targets[i]` never fails. -/
theorem updateTargetsBody_length (h : Host) (dt : ℚ) (idleNow : Nat → ℚ) (i : Nat) (s : State) :
    s.targets.length ≤ (updateTargetsBody h dt idleNow i s).targets.length + 1 := by
  unfold updateTargetsBody
  split
  · omega
  · dsimp only
    split_ifs
    · exact destroyTarget_length _ s
    · exact destroyTarget_length _ s
    · have := despawnIfFar_length h
        (moved h dt idleNow s.camera i (by assumption))
        { s with targets := s.targets.set i (moved h dt idleNow s.camera i (by assumption)) }
      simp only [List.length_set] at this
      simpa [moved, *] using this
    · have := despawnIfFar_length h
        (moved h dt idleNow s.camera i (by assumption))
        { s with targets := s.targets.set i (moved h dt idleNow s.camera i (by assumption)) }
      simp only [List.length_set] at this
      simpa [moved, *] using this

end FpsSkool
